import Mathlib

/-!
Verification development for the CONQUEST / CLAWQUEST territory-control game
server (TypeScript source: `server/src/game/actions.ts`,
`server/src/game/communication.ts`, `server/src/tick/processor.ts`,
`server/src/tick/scheduler.ts`, `server/src/routes/actions.ts`,
`server/src/routes/agent.ts`, `server/src/db/database.ts`).

The SQLite store is modelled as a `Store` record of lists (one list per
table, rows in insertion order).  SQL `UPDATE ... WHERE` statements are
modelled as `List.map` with a guard (they hit every matching row),
`SELECT ... WHERE` single-row reads as `List.find?`, and multi-row reads as
`List.filter`.  Timestamps (`datetime('now')`, `resolves_at`, `expires_at`)
are modelled as integers in hours, so `ATTACK_RESOLUTION_HOURS` and
`TRADE_EXPIRY_HOURS` are added directly.  `Math.random()` terrain assignment
is modelled by an arbitrary terrain-assignment function parameter.
JavaScript's stable `Array.sort` with the terrain-value comparator is
modelled by `List.insertionSort` (a stable sort) over the same key.
-/

namespace Conquest

-- ===========================================================================
-- DATA MODEL (db/database.ts schema, types.ts)
-- ===========================================================================

inductive Terrain
  | farmland
  | mine
  | mixed
  | barren
deriving DecidableEq, Repr

structure Tile where
  q : Int
  r : Int
  terrain : Terrain
  owner_id : Option String
  fortification : Int
deriving DecidableEq, Repr

structure Agent where
  id : String
  display_name : String
  food : Int
  metal : Int
  capital_q : Option Int
  capital_r : Option Int
  last_seen_at : Option Int
deriving DecidableEq, Repr

inductive AttackStatus
  | pending
  | resolved
deriving DecidableEq, Repr

structure Attack where
  id : Nat
  attacker_id : String
  target_q : Int
  target_r : Int
  commitment : Int
  status : AttackStatus
  resolves_at : Int
deriving DecidableEq, Repr

inductive TradeStatus
  | pending
  | accepted
  | rejected
  | expired
deriving DecidableEq, Repr

structure Trade where
  id : Nat
  from_id : String
  to_id : String
  offer_food : Int
  offer_metal : Int
  request_food : Int
  request_metal : Int
  status : TradeStatus
  expires_at : Option Int
deriving DecidableEq, Repr

structure Message where
  from_id : String
  to_id : String
  content : String
  read : Bool
deriving DecidableEq, Repr

/-- Event log rows, reduced to the type tag and actor (the description and
JSON payload strings carry no further game state). -/
structure EventRec where
  type : String
  actor_id : Option String
deriving DecidableEq, Repr

structure GameState where
  current_tick : Int
  last_tick_at : Option Int
  tick_interval_hours : Int
  grid_radius : Int
deriving DecidableEq, Repr

structure Store where
  agents : List Agent
  tiles : List Tile
  attacks : List Attack
  trades : List Trade
  messages : List Message
  events : List EventRec
  gameState : GameState
deriving DecidableEq, Repr

structure ActionResponse where
  success : Bool
  message : String
deriving DecidableEq, Repr

-- ===========================================================================
-- GAME CONSTANTS (types.ts)
-- ===========================================================================

def EXPAND_FOOD_COST : Int := 20
def EXPAND_METAL_COST : Int := 10
def FARMLAND_FOOD : Int := 10
def MINE_METAL : Int := 10
def MIXED_FOOD : Int := 5
def MIXED_METAL : Int := 5
def BARREN_FOOD : Int := 2
def UPKEEP_FOOD_PER_TILE : Int := 3
def BASE_TILE_DEFENSE : Int := 10
def ATTACK_RESOLUTION_HOURS : Int := 2
def TRADE_EXPIRY_HOURS : Int := 24
def MAP_EXPANSION_RINGS : Int := 2

-- ===========================================================================
-- STORE HELPERS (shared query/update idioms)
-- ===========================================================================

/-- SELECT * FROM tiles WHERE q = ? AND r = ? -/
def getTile (s : Store) (q r : Int) : Option Tile :=
  s.tiles.find? (fun t => t.q == q && t.r == r)

/-- SELECT * FROM agents WHERE id = ? -/
def getAgent (s : Store) (agentId : String) : Option Agent :=
  s.agents.find? (fun a => a.id == agentId)

/-- UPDATE tiles SET ... WHERE q = ? AND r = ? -/
def updateTiles (s : Store) (q r : Int) (f : Tile → Tile) : Store :=
  { s with tiles := s.tiles.map (fun t => if t.q == q && t.r == r then f t else t) }

/-- UPDATE agents SET ... WHERE id = ? -/
def updateAgents (s : Store) (agentId : String) (f : Agent → Agent) : Store :=
  { s with agents := s.agents.map (fun a => if a.id == agentId then f a else a) }

/-- UPDATE agents SET food = food + ?, metal = metal + ? WHERE id = ? -/
def updateAgentResources (s : Store) (agentId : String) (foodDelta metalDelta : Int) : Store :=
  updateAgents s agentId (fun a => { a with food := a.food + foodDelta, metal := a.metal + metalDelta })

/-- UPDATE attacks SET status = ? WHERE id = ? -/
def updateAttackStatus (s : Store) (attackId : Nat) (st : AttackStatus) : Store :=
  { s with attacks := s.attacks.map (fun a => if a.id == attackId then { a with status := st } else a) }

/-- UPDATE trades SET status = ? WHERE id = ? -/
def updateTradeStatus (s : Store) (tradeId : Nat) (st : TradeStatus) : Store :=
  { s with trades := s.trades.map (fun t => if t.id == tradeId then { t with status := st } else t) }

/-- INSERT INTO events (type, actor_id, ...) VALUES (...) -/
def logEvent (s : Store) (actorId : Option String) (ty : String) : Store :=
  { s with events := s.events ++ [⟨ty, actorId⟩] }

/-- AUTOINCREMENT id for a fresh attacks row. -/
def nextAttackId (s : Store) : Nat :=
  s.attacks.foldl (fun m a => max m a.id) 0 + 1

/-- AUTOINCREMENT id for a fresh trades row. -/
def nextTradeId (s : Store) : Nat :=
  s.trades.foldl (fun m t => max m t.id) 0 + 1

-- ===========================================================================
-- HEX TOPOLOGY (game/actions.ts)
-- ===========================================================================

/-- getNeighbors: the fixed six axial neighbours, in source order. -/
def getNeighbors (q r : Int) : List (Int × Int) :=
  [(q + 1, r), (q - 1, r), (q, r + 1), (q, r - 1), (q + 1, r - 1), (q - 1, r + 1)]

/-- hasAdjacentTerritory: does the agent own any tile adjacent to the target? -/
def hasAdjacentTerritory (s : Store) (agentId : String) (targetQ targetR : Int) : Bool :=
  (getNeighbors targetQ targetR).any fun c =>
    match getTile s c.1 c.2 with
    | some t => t.owner_id == some agentId
    | none => false

-- ===========================================================================
-- CLEAR CAPITAL (game/actions.ts clearCapitalIfLost)
-- ===========================================================================

def clearCapitalIfLost (s : Store) (agentId : String) (lostQ lostR : Int) : Store :=
  match getAgent s agentId with
  | none => s
  | some a =>
    if a.capital_q == some lostQ && a.capital_r == some lostR then
      updateAgents s agentId (fun b => { b with capital_q := none, capital_r := none })
    else s

-- ===========================================================================
-- EXPAND ACTION (game/actions.ts expand)
-- ===========================================================================

def expand (s : Store) (agent : Agent) (targetQ targetR : Int) : ActionResponse × Store :=
  match getTile s targetQ targetR with
  | none => (⟨false, "Target tile does not exist"⟩, s)
  | some targetTile =>
    if targetTile.owner_id.isSome then
      (⟨false, "Target tile is already claimed. Use ATTACK to take enemy tiles."⟩, s)
    else if !(hasAdjacentTerritory s agent.id targetQ targetR) then
      (⟨false, "You must expand from an adjacent tile you own"⟩, s)
    else if agent.food < EXPAND_FOOD_COST then
      (⟨false, "Not enough food"⟩, s)
    else if agent.metal < EXPAND_METAL_COST then
      (⟨false, "Not enough metal"⟩, s)
    else
      let s1 := updateAgentResources s agent.id (-EXPAND_FOOD_COST) (-EXPAND_METAL_COST)
      let s2 := updateTiles s1 targetQ targetR (fun t => { t with owner_id := some agent.id })
      let s3 := logEvent s2 (some agent.id) "expand"
      (⟨true, "Successfully expanded"⟩, s3)

-- ===========================================================================
-- ATTACK DECLARATION (game/actions.ts declareAttack)
-- ===========================================================================

def declareAttack (s : Store) (now : Int) (agent : Agent) (targetQ targetR commitment : Int) :
    ActionResponse × Store :=
  if commitment ≤ 0 then (⟨false, "Metal commitment must be positive"⟩, s)
  else if commitment > agent.metal then (⟨false, "Not enough metal"⟩, s)
  else
    match getTile s targetQ targetR with
    | none => (⟨false, "Target tile does not exist"⟩, s)
    | some targetTile =>
      match targetTile.owner_id with
      | none => (⟨false, "Target tile is unclaimed. Use EXPAND instead."⟩, s)
      | some ownerId =>
        if ownerId == agent.id then (⟨false, "Cannot attack your own tile"⟩, s)
        else if !(hasAdjacentTerritory s agent.id targetQ targetR) then
          (⟨false, "You must attack from an adjacent tile you own"⟩, s)
        else
          match getAgent s ownerId with
          | none => (⟨false, "Defender not found"⟩, s)
          | some _defender =>
            let resolvesAt := now + ATTACK_RESOLUTION_HOURS
            let s1 := updateAgentResources s agent.id 0 (-commitment)
            let s2 := { s1 with attacks := s1.attacks ++
              [⟨nextAttackId s1, agent.id, targetQ, targetR, commitment, AttackStatus.pending, resolvesAt⟩] }
            let s3 := logEvent s2 (some agent.id) "attack_declared"
            (⟨true, "Attack declared"⟩, s3)

-- ===========================================================================
-- FORTIFY ACTION (game/actions.ts fortify)
-- ===========================================================================

def fortify (s : Store) (agent : Agent) (targetQ targetR metalAmount : Int) :
    ActionResponse × Store :=
  if metalAmount ≤ 0 then (⟨false, "Metal amount must be positive"⟩, s)
  else if metalAmount > agent.metal then (⟨false, "Not enough metal"⟩, s)
  else
    match getTile s targetQ targetR with
    | none => (⟨false, "Target tile does not exist"⟩, s)
    | some targetTile =>
      if targetTile.owner_id ≠ some agent.id then
        (⟨false, "You can only fortify your own tiles"⟩, s)
      else
        let s1 := updateAgentResources s agent.id 0 (-metalAmount)
        let s2 := updateTiles s1 targetQ targetR
          (fun t => { t with fortification := t.fortification + metalAmount })
        let s3 := logEvent s2 (some agent.id) "fortify"
        (⟨true, "Fortified"⟩, s3)

-- ===========================================================================
-- GIFT TILE ACTION (game/actions.ts giftTile)
-- ===========================================================================

def giftTile (s : Store) (agent : Agent) (targetQ targetR : Int) (toAgentId : String) :
    ActionResponse × Store :=
  match getTile s targetQ targetR with
  | none => (⟨false, "Target tile does not exist"⟩, s)
  | some targetTile =>
    if targetTile.owner_id ≠ some agent.id then
      (⟨false, "You can only gift your own tiles"⟩, s)
    else
      match getAgent s toAgentId with
      | none => (⟨false, "Recipient agent not found"⟩, s)
      | some recipient =>
        if recipient.id == agent.id then (⟨false, "Cannot gift tile to yourself"⟩, s)
        else
          let s1 := updateTiles s targetQ targetR (fun t => { t with owner_id := some recipient.id })
          let s2 := clearCapitalIfLost s1 agent.id targetQ targetR
          let s3 := logEvent s2 (some agent.id) "gift"
          (⟨true, "Successfully gifted"⟩, s3)

-- ===========================================================================
-- SET CAPITAL ACTION (game/actions.ts setCapital)
-- ===========================================================================

def setCapital (s : Store) (agent : Agent) (targetQ targetR : Int) : ActionResponse × Store :=
  match getTile s targetQ targetR with
  | none => (⟨false, "Target tile does not exist"⟩, s)
  | some targetTile =>
    if targetTile.owner_id ≠ some agent.id then
      (⟨false, "You can only set capital on your own tiles"⟩, s)
    else
      let s1 := updateAgents s agent.id
        (fun a => { a with capital_q := some targetQ, capital_r := some targetR })
      let s2 := logEvent s1 (some agent.id) "expand"
      (⟨true, "Successfully set capital"⟩, s2)

-- ===========================================================================
-- GIFT RESOURCES ACTION (game/actions.ts giftResources)
-- ===========================================================================

def giftResources (s : Store) (agent : Agent) (toAgentId : String) (food metal : Int) :
    ActionResponse × Store :=
  if food < 0 ∨ metal < 0 then (⟨false, "Resource amounts cannot be negative"⟩, s)
  else if food = 0 ∧ metal = 0 then (⟨false, "Must gift at least some resources"⟩, s)
  else if food > agent.food then (⟨false, "Not enough food"⟩, s)
  else if metal > agent.metal then (⟨false, "Not enough metal"⟩, s)
  else
    match getAgent s toAgentId with
    | none => (⟨false, "Recipient agent not found"⟩, s)
    | some recipient =>
      if recipient.id == agent.id then (⟨false, "Cannot gift resources to yourself"⟩, s)
      else
        let s1 := updateAgentResources s agent.id (-food) (-metal)
        let s2 := updateAgentResources s1 recipient.id food metal
        let s3 := logEvent s2 (some agent.id) "gift"
        (⟨true, "Successfully gifted resources"⟩, s3)

-- ===========================================================================
-- MESSAGES (game/communication.ts sendMessage)
-- ===========================================================================

def sendMessage (s : Store) (agent : Agent) (toAgentId : String) (content : String) :
    ActionResponse × Store :=
  if content.trim.length = 0 then (⟨false, "Message content cannot be empty"⟩, s)
  else if content.length > 2000 then (⟨false, "Message too long"⟩, s)
  else
    match getAgent s toAgentId with
    | none => (⟨false, "Recipient agent not found"⟩, s)
    | some recipient =>
      if recipient.id == agent.id then (⟨false, "Cannot send message to yourself"⟩, s)
      else
        (⟨true, "Message sent"⟩,
          { s with messages := s.messages ++ [⟨agent.id, recipient.id, content.trim, false⟩] })

-- ===========================================================================
-- TRADES (game/communication.ts proposeTrade / acceptTrade / rejectTrade)
-- ===========================================================================

def proposeTrade (s : Store) (now : Int) (agent : Agent) (toAgentId : String)
    (offerFood offerMetal requestFood requestMetal : Int) : ActionResponse × Store :=
  if offerFood < 0 ∨ offerMetal < 0 ∨ requestFood < 0 ∨ requestMetal < 0 then
    (⟨false, "Trade amounts cannot be negative"⟩, s)
  else if offerFood = 0 ∧ offerMetal = 0 ∧ requestFood = 0 ∧ requestMetal = 0 then
    (⟨false, "Trade must involve at least some resources"⟩, s)
  else if offerFood > agent.food then (⟨false, "Cannot offer that much food"⟩, s)
  else if offerMetal > agent.metal then (⟨false, "Cannot offer that much metal"⟩, s)
  else
    match getAgent s toAgentId with
    | none => (⟨false, "Recipient agent not found"⟩, s)
    | some recipient =>
      if recipient.id == agent.id then (⟨false, "Cannot trade with yourself"⟩, s)
      else
        let expiresAt := now + TRADE_EXPIRY_HOURS
        let s1 := { s with trades := s.trades ++
          [⟨nextTradeId s, agent.id, recipient.id, offerFood, offerMetal, requestFood,
            requestMetal, TradeStatus.pending, some expiresAt⟩] }
        let s2 := logEvent s1 (some agent.id) "trade_proposed"
        (⟨true, "Trade proposal sent"⟩, s2)

/-- SELECT * FROM trades WHERE id = ? AND status = 'pending' -/
def findPendingTrade (s : Store) (tradeId : Nat) : Option Trade :=
  s.trades.find? (fun t => t.id == tradeId && t.status == TradeStatus.pending)

def acceptTrade (s : Store) (now : Int) (agent : Agent) (tradeId : Nat) :
    ActionResponse × Store :=
  match findPendingTrade s tradeId with
  | none => (⟨false, "Trade proposal not found or no longer pending"⟩, s)
  | some trade =>
    if (match trade.expires_at with
        | some e => decide (e < now)
        | none => false) then
      (⟨false, "Trade proposal has expired"⟩, updateTradeStatus s tradeId TradeStatus.expired)
    else if trade.to_id ≠ agent.id then
      (⟨false, "This trade proposal is not for you"⟩, s)
    else
      match getAgent s trade.from_id with
      | none => (⟨false, "Trade proposer no longer exists"⟩, s)
      | some proposer =>
        if proposer.food < trade.offer_food ∨ proposer.metal < trade.offer_metal then
          (⟨false, "Proposer no longer has the offered resources"⟩,
            updateTradeStatus s tradeId TradeStatus.expired)
        else if agent.food < trade.request_food ∨ agent.metal < trade.request_metal then
          (⟨false, "You do not have enough resources"⟩, s)
        else
          let s1 := updateAgentResources s proposer.id
            (-trade.offer_food + trade.request_food) (-trade.offer_metal + trade.request_metal)
          let s2 := updateAgentResources s1 agent.id
            (trade.offer_food - trade.request_food) (trade.offer_metal - trade.request_metal)
          let s3 := updateTradeStatus s2 tradeId TradeStatus.accepted
          let s4 := logEvent s3 none "trade_accepted"
          (⟨true, "Trade completed"⟩, s4)

def rejectTrade (s : Store) (agent : Agent) (tradeId : Nat) : ActionResponse × Store :=
  match findPendingTrade s tradeId with
  | none => (⟨false, "Trade proposal not found or no longer pending"⟩, s)
  | some trade =>
    if trade.to_id ≠ agent.id then (⟨false, "This trade proposal is not for you"⟩, s)
    else
      let s1 := updateTradeStatus s tradeId TradeStatus.rejected
      let s2 :=
        match getAgent s trade.from_id with
        | some _proposer => logEvent s1 (some agent.id) "trade_rejected"
        | none => s1
      (⟨true, "Trade proposal rejected"⟩, s2)

-- ===========================================================================
-- TICK PROCESSOR (tick/processor.ts)
-- ===========================================================================

/-- calculateResourceProduction: (food, metal) produced by one tile per tick. -/
def calculateResourceProduction (terrain : Terrain) : Int × Int :=
  match terrain with
  | Terrain.farmland => (FARMLAND_FOOD, 0)
  | Terrain.mine => (0, MINE_METAL)
  | Terrain.mixed => (MIXED_FOOD, MIXED_METAL)
  | Terrain.barren => (BARREN_FOOD, 0)

/-- getPendingAttacksToResolve: pending attacks past their deadline; the SQL
JOIN with tiles drops attacks whose target tile row does not exist. -/
def getPendingAttacksToResolve (s : Store) (now : Int) : List Attack :=
  s.attacks.filter (fun a =>
    a.status == AttackStatus.pending && decide (a.resolves_at ≤ now)
      && (getTile s a.target_q a.target_r).isSome)

/-- Body of the step-1 loop of processTick for a single pending attack. -/
def resolveOne (s : Store) (attack : Attack) : Store :=
  match getTile s attack.target_q attack.target_r with
  | none => updateAttackStatus s attack.id AttackStatus.resolved
  | some tile =>
    let defense := BASE_TILE_DEFENSE + tile.fortification
    if attack.commitment > defense then
      let previousOwner := tile.owner_id
      let s1 := updateTiles s attack.target_q attack.target_r
        (fun t => { t with owner_id := some attack.attacker_id, fortification := 0 })
      let s2 := logEvent s1 (some attack.attacker_id) "attack_success"
      let s3 :=
        match previousOwner with
        | some p => clearCapitalIfLost s2 p attack.target_q attack.target_r
        | none => s2
      updateAttackStatus s3 attack.id AttackStatus.resolved
    else
      updateAttackStatus (logEvent s (some attack.attacker_id) "attack_failed")
        attack.id AttackStatus.resolved

/-- Step 1 of processTick: resolve the pending attacks, in retrieval order. -/
def resolveAttacksStep (s : Store) (now : Int) : Store :=
  (getPendingAttacksToResolve s now).foldl resolveOne s

/-- Body of the step-2 loop of processTick for a single agent. -/
def produceAgentStep (s : Store) (agentId : String) : Store :=
  let tiles := s.tiles.filter (fun t => t.owner_id == some agentId)
  let totalFood := (tiles.map (fun t => (calculateResourceProduction t.terrain).1)).sum
  let totalMetal := (tiles.map (fun t => (calculateResourceProduction t.terrain).2)).sum
  if totalFood > 0 ∨ totalMetal > 0 then
    updateAgentResources s agentId totalFood totalMetal
  else s

/-- Step 2 of processTick: credit resource production to every agent. -/
def productionStep (s : Store) (agentIds : List String) : Store :=
  agentIds.foldl produceAgentStep s

/-- Terrain value used by the starvation sort comparator
(barren 0, mixed 1, mine 2, farmland 3). -/
def tileValue (t : Tile) : Nat :=
  match t.terrain with
  | Terrain.barren => 0
  | Terrain.mixed => 1
  | Terrain.mine => 2
  | Terrain.farmland => 3

def tileValueLE (a b : Tile) : Prop := tileValue a ≤ tileValue b

instance : DecidableRel tileValueLE := fun a b => Nat.decLe (tileValue a) (tileValue b)

instance : IsTotal Tile tileValueLE := ⟨fun a b => Nat.le_total (tileValue a) (tileValue b)⟩

instance : IsTrans Tile tileValueLE := ⟨fun _ _ _ => Nat.le_trans⟩

/-- JavaScript's stable Array.sort with the terrain-value comparator, modelled
by the stable insertionSort over the same key. -/
def sortTilesByValue (l : List Tile) : List Tile :=
  List.insertionSort tileValueLE l

/-- Body of the starvation loop: clear one lost tile and its capital mark. -/
def loseTile (agentId : String) (s : Store) (t : Tile) : Store :=
  let s1 := updateTiles s t.q t.r (fun u => { u with owner_id := none, fortification := 0 })
  let s2 := clearCapitalIfLost s1 agentId t.q t.r
  logEvent s2 (some agentId) "starvation"

/-- Body of the step-3 loop of processTick for a single agent: pay upkeep in
full, or starve (food zeroed, cheapest tiles lost). `(x.toNat + 2) / 3` is
`Math.ceil(shortfall / UPKEEP_FOOD_PER_TILE)` for the positive shortfall. -/
def upkeepAgentStep (s : Store) (agentId : String) : Store :=
  let tiles := s.tiles.filter (fun t => t.owner_id == some agentId)
  let upkeepCost : Int := tiles.length * UPKEEP_FOOD_PER_TILE
  if upkeepCost > 0 then
    match getAgent s agentId with
    | none => s
    | some currentAgent =>
      if currentAgent.food ≥ upkeepCost then
        updateAgents s agentId (fun a => { a with food := a.food - upkeepCost })
      else
        let paidAmount := currentAgent.food
        let s1 := updateAgents s agentId (fun a => { a with food := 0 })
        let shortfall := upkeepCost - paidAmount
        let tilesToLose : Nat := (shortfall.toNat + 2) / 3
        let tilesOrdered := sortTilesByValue tiles
        let toLose := tilesOrdered.take (min tilesToLose tilesOrdered.length)
        toLose.foldl (loseTile agentId) s1
  else s

/-- Step 3 of processTick: deduct upkeep (with starvation) for every agent. -/
def upkeepStep (s : Store) (agentIds : List String) : Store :=
  agentIds.foldl upkeepAgentStep s

/-- Step 4 of processTick:
UPDATE trades SET status = 'expired' WHERE status = 'pending' AND expires_at <= now. -/
def expireTradesStep (s : Store) (now : Int) : Store :=
  { s with trades := s.trades.map (fun t =>
      if t.status == TradeStatus.pending &&
          (match t.expires_at with
           | some e => decide (e ≤ now)
           | none => false) then
        { t with status := TradeStatus.expired }
      else t) }

/-- Step 5 of processTick: advance the tick counter and log the tick event. -/
def advanceGameStep (s : Store) (newTickNumber now : Int) : Store :=
  logEvent
    { s with gameState :=
        { s.gameState with current_tick := newTickNumber, last_tick_at := some now } }
    none "tick"

/-- processTick: the whole tick transaction, steps 1-5 in source order.  The
agent list snapshot for steps 2 and 3 is taken after attack resolution. -/
def processTick (s : Store) (now : Int) : Store :=
  let newTickNumber := s.gameState.current_tick + 1
  let s1 := resolveAttacksStep s now
  let agentIds := s1.agents.map (fun a => a.id)
  let s2 := productionStep s1 agentIds
  let s3 := upkeepStep s2 agentIds
  let s4 := expireTradesStep s3 now
  advanceGameStep s4 newTickNumber now

-- ===========================================================================
-- SCHEDULER (tick/scheduler.ts, tick/processor.ts shouldProcessTick)
-- ===========================================================================

/-- shouldProcessTick: has the configured interval elapsed since the last tick? -/
def shouldProcessTick (s : Store) (now : Int) : Bool :=
  match s.gameState.last_tick_at with
  | none => true
  | some lastTickTime => decide (now - lastTickTime ≥ s.gameState.tick_interval_hours)

/-- checkAndProcessTick: the timer-driven path runs a tick only when due. -/
def checkAndProcessTick (s : Store) (now : Int) : Store :=
  if shouldProcessTick s now then processTick s now else s

/-- triggerTickManually: the admin path runs processTick unconditionally. -/
def triggerTickManually (s : Store) (now : Int) : Store :=
  processTick s now

-- ===========================================================================
-- GRID GENERATION AND EXPANSION (db/database.ts)
-- ===========================================================================

/-- Coordinates of the initial hexagonal grid of the given radius, in the
nested-loop order of generateInitialGrid. -/
def gridCoords (radius : Nat) : List (Int × Int) :=
  (List.range (2 * radius + 1)).flatMap fun qi =>
    let q : Int := (qi : Int) - (radius : Int)
    let r1 : Int := max (-(radius : Int)) (-q - (radius : Int))
    let r2 : Int := min (radius : Int) (-q + (radius : Int))
    (List.range ((r2 - r1).toNat + 1)).map fun ri => (q, r1 + (ri : Int))

/-- generateInitialGrid plus game_state initialisation; the random terrain
draw is modelled by the terrain-assignment parameter. -/
def initialStore (terrainOf : Int → Int → Terrain) : Store :=
  { agents := []
    tiles := (gridCoords 8).map (fun c => ⟨c.1, c.2, terrainOf c.1 c.2, none, 0⟩)
    attacks := []
    trades := []
    messages := []
    events := []
    gameState := { current_tick := 0, last_tick_at := some 0, tick_interval_hours := 2, grid_radius := 8 } }

/-- getHexRingCoords: the clockwise ring walk at hex distance d. -/
def getHexRingCoords (d : Int) : List (Int × Int) :=
  if d == 0 then [(0, 0)]
  else
    let dirs : List (Int × Int) := [(1, 0), (1, -1), (0, -1), (-1, 0), (-1, 1), (0, 1)]
    (dirs.foldl
      (fun (acc : List (Int × Int) × Int × Int) dir =>
        (List.range d.toNat).foldl
          (fun acc2 _ => (acc2.1 ++ [(acc2.2.1, acc2.2.2)], acc2.2.1 + dir.1, acc2.2.2 + dir.2))
          acc)
      ([], -d, d)).1

/-- INSERT OR IGNORE INTO tiles (q, r, terrain, owner_id, fortification). -/
def insertTileIfAbsent (s : Store) (q r : Int) (terrain : Terrain) : Store :=
  if (getTile s q r).isSome then s
  else { s with tiles := s.tiles ++ [⟨q, r, terrain, none, 0⟩] }

/-- expandGrid: add `rings` new rings around the current radius and persist
the new radius; terrain of each new tile comes from the draw parameter. -/
def expandGrid (s : Store) (terrainOf : Int → Int → Terrain) (rings : Int) : Store :=
  let currentRadius := s.gameState.grid_radius
  let newRadius := currentRadius + rings
  let s1 := (List.range rings.toNat).foldl
    (fun st i =>
      let d := currentRadius + 1 + (i : Int)
      (getHexRingCoords d).foldl
        (fun st2 c => insertTileIfAbsent st2 c.1 c.2 (terrainOf c.1 c.2)) st)
    s
  { s1 with gameState := { s1.gameState with grid_radius := newRadius } }

-- ===========================================================================
-- AGENT JOIN (routes/agent.ts)
-- ===========================================================================

def centerDist (t : Tile) : Int := t.q * t.q + t.r * t.r + t.q * t.r

/-- findStartingTile: an unclaimed tile of minimal distance to the centre
(ORDER BY q*q + r*r + q*r ASC LIMIT 1; ties broken by row order). -/
def findStartingTile (s : Store) : Option Tile :=
  (s.tiles.filter (fun t => t.owner_id == none)).foldl
    (fun best t =>
      match best with
      | none => some t
      | some b => if centerDist t < centerDist b then some t else best)
    none

/-- joinAgent: validation, duplicate checks, starting-tile assignment and the
initial 100 food / 50 metal grant. -/
def joinAgent (s : Store) (agentId displayName : String) : Bool × Store :=
  if agentId.trim.length < 2 then (false, s)
  else if displayName.trim.length < 2 then (false, s)
  else if (getAgent s agentId.trim).isSome then (false, s)
  else if s.agents.any (fun a => a.display_name == displayName.trim) then (false, s)
  else
    match findStartingTile s with
    | none => (false, s)
    | some startingTile =>
      let s1 := { s with agents := s.agents ++
        [⟨agentId.trim, displayName.trim, 100, 50, none, none, none⟩] }
      let s2 := updateTiles s1 startingTile.q startingTile.r
        (fun t => { t with owner_id := some agentId.trim })
      let s3 := logEvent s2 (some agentId.trim) "join"
      (true, s3)

-- ===========================================================================
-- ACTION ROUTE (routes/actions.ts, POST /:id/action)
-- ===========================================================================

/-- The dynamic JSON action payload: every field optional, mirroring the
route's typeof validation of the untyped request body. -/
structure RawAction where
  type : Option String := none
  target_q : Option Int := none
  target_r : Option Int := none
  commitment : Option Int := none
  metal_amount : Option Int := none
  to_agent_id : Option String := none
  content : Option String := none
  food : Option Int := none
  metal : Option Int := none
  offer_food : Option Int := none
  offer_metal : Option Int := none
  request_food : Option Int := none
  request_metal : Option Int := none
  trade_id : Option Nat := none
deriving DecidableEq, Repr

/-- The switch of the unified action endpoint: payload validation and
dispatch to the executor functions, run on the store after the route's
last-seen refresh. -/
def dispatchAction (s0 : Store) (now : Int) (agent : Agent) (raw : RawAction) :
    ActionResponse × Store :=
  match raw.type with
  | none => (⟨false, "Invalid action format. Must include action.type"⟩, s0)
  | some "expand" =>
    match raw.target_q, raw.target_r with
    | some tq, some tr => expand s0 agent tq tr
    | _, _ => (⟨false, "expand requires target_q and target_r"⟩, s0)
  | some "attack" =>
    match raw.target_q, raw.target_r with
    | some tq, some tr =>
      match raw.commitment with
      | some c =>
        if c ≤ 0 then (⟨false, "attack requires commitment (positive number)"⟩, s0)
        else declareAttack s0 now agent tq tr c
      | none => (⟨false, "attack requires commitment (positive number)"⟩, s0)
    | _, _ => (⟨false, "attack requires target_q and target_r"⟩, s0)
  | some "fortify" =>
    match raw.target_q, raw.target_r with
    | some tq, some tr =>
      match raw.metal_amount with
      | some m =>
        if m ≤ 0 then (⟨false, "fortify requires metal_amount (positive number)"⟩, s0)
        else fortify s0 agent tq tr m
      | none => (⟨false, "fortify requires metal_amount (positive number)"⟩, s0)
    | _, _ => (⟨false, "fortify requires target_q and target_r"⟩, s0)
  | some "gift_tile" =>
    match raw.target_q, raw.target_r with
    | some tq, some tr =>
      match raw.to_agent_id with
      | some toId => giftTile s0 agent tq tr toId
      | none => (⟨false, "gift_tile requires to_agent_id"⟩, s0)
    | _, _ => (⟨false, "gift_tile requires target_q and target_r"⟩, s0)
  | some "gift_resources" =>
    match raw.to_agent_id with
    | some toId => giftResources s0 agent toId (raw.food.getD 0) (raw.metal.getD 0)
    | none => (⟨false, "gift_resources requires to_agent_id"⟩, s0)
  | some "message" =>
    match raw.to_agent_id with
    | some toId =>
      match raw.content with
      | some content => sendMessage s0 agent toId content
      | none => (⟨false, "message requires content"⟩, s0)
    | none => (⟨false, "message requires to_agent_id"⟩, s0)
  | some "trade_propose" =>
    match raw.to_agent_id with
    | some toId =>
      proposeTrade s0 now agent toId (raw.offer_food.getD 0) (raw.offer_metal.getD 0)
        (raw.request_food.getD 0) (raw.request_metal.getD 0)
    | none => (⟨false, "trade_propose requires to_agent_id"⟩, s0)
  | some "trade_accept" =>
    match raw.trade_id with
    | some tid => acceptTrade s0 now agent tid
    | none => (⟨false, "trade_accept requires trade_id"⟩, s0)
  | some "trade_reject" =>
    match raw.trade_id with
    | some tid => rejectTrade s0 agent tid
    | none => (⟨false, "trade_reject requires trade_id"⟩, s0)
  | some "wait" =>
    (⟨true, "Waited. No action taken."⟩, s0)
  | some "set_capital" =>
    match raw.target_q, raw.target_r with
    | some tq, some tr => setCapital s0 agent tq tr
    | _, _ => (⟨false, "set_capital requires target_q and target_r"⟩, s0)
  | some _ => (⟨false, "Unknown action type"⟩, s0)

/-- The unified action endpoint: agent lookup, unconditional last-seen
refresh, then the validation/dispatch switch.  The optional save_memory
side channel only touches the agent_memories table and is outside the
modelled tables. -/
def submitAction (s : Store) (now : Int) (agentId : String) (raw : RawAction) :
    ActionResponse × Store :=
  match getAgent s agentId with
  | none => (⟨false, "Agent not found"⟩, s)
  | some agent =>
    dispatchAction (updateAgents s agentId (fun a => { a with last_seen_at := some now }))
      now agent raw

-- ===========================================================================
-- DERIVED VIEWS OF THE STORE (used by theorem statements)
-- ===========================================================================

/-- The game-relevant core of an agent row: everything except the last-seen
bookkeeping timestamp. -/
def agentCore (a : Agent) : String × String × Int × Int × Option Int × Option Int :=
  (a.id, a.display_name, a.food, a.metal, a.capital_q, a.capital_r)

/-- Identity and resource balances of an agent row. -/
def agentResources (a : Agent) : String × Int × Int :=
  (a.id, a.food, a.metal)

def totalFood (s : Store) : Int := (s.agents.map (fun a => a.food)).sum

def totalMetal (s : Store) : Int := (s.agents.map (fun a => a.metal)).sum

/-- The primary keys of the tiles table. -/
def tileCoords (s : Store) : List (Int × Int) := s.tiles.map (fun t => (t.q, t.r))

/-- Tiles owned by the given agent (SELECT * FROM tiles WHERE owner_id = ?). -/
def ownedTiles (s : Store) (agentId : String) : List Tile :=
  s.tiles.filter (fun t => t.owner_id == some agentId)

/-- The unowned-tiles-are-unfortified invariant. -/
def TileInv (s : Store) : Prop :=
  ∀ t ∈ s.tiles, t.owner_id = none → t.fortification = 0

/-- Schema-level well-formedness that the game relies on: tile coordinates
are a primary key, and the invariant above. -/
def StoreInv (s : Store) : Prop :=
  (tileCoords s).Nodup ∧ TileInv s

/-- Every attacks row with this id is resolved. -/
def resolvedIn (s : Store) (attackId : Nat) : Prop :=
  ∀ a ∈ s.attacks, a.id = attackId → a.status = AttackStatus.resolved

/-- The effect of losing a tile on its row. -/
def clearTile (t : Tile) : Tile := { t with owner_id := none, fortification := 0 }

/-- The trades table after one row is marked expired. -/
def expireTradeRow (trades : List Trade) (tradeId : Nat) : List Trade :=
  trades.map (fun t => if t.id == tradeId then { t with status := TradeStatus.expired } else t)

/-- The expiry guard evaluated by acceptTrade
(trade.expires_at && new Date(trade.expires_at) < new Date()). -/
def tradeExpired (trade : Trade) (now : Int) : Bool :=
  match trade.expires_at with
  | some e => decide (e < now)
  | none => false

/-- Does some tile in the list share coordinates with u? -/
def coordHit (L : List Tile) (u : Tile) : Bool :=
  L.any (fun t => u.q == t.q && u.r == t.r)

/-- The second store is the first with, at most, agent last-seen timestamps
refreshed and one trade row auto-marked expired: tiles, attacks, messages,
events, the game-state row and every agent's game-relevant fields are
unchanged. -/
def UnchangedUpToBookkeeping (s sAfter : Store) : Prop :=
  sAfter.tiles = s.tiles
  ∧ sAfter.attacks = s.attacks
  ∧ sAfter.messages = s.messages
  ∧ sAfter.events = s.events
  ∧ sAfter.gameState = s.gameState
  ∧ sAfter.agents.map agentCore = s.agents.map agentCore
  ∧ (sAfter.trades = s.trades
      ∨ ∃ tradeId, sAfter.trades = expireTradeRow s.trades tradeId)

/-- The list of tiles the starvation branch of the tick removes from an
agent whose current food is the given amount: the cheapest
min(ceil(shortfall / 3), owned-count) owned tiles in stable
terrain-value order, exactly as the source computes them. -/
def starveLost (s : Store) (agentId : String) (food : Int) : List Tile :=
  (sortTilesByValue (ownedTiles s agentId)).take
    (min ((((ownedTiles s agentId).length * UPKEEP_FOOD_PER_TILE - food).toNat + 2) / 3)
      (sortTilesByValue (ownedTiles s agentId)).length)

-- ===========================================================================
-- REACHABLE STATES
-- ===========================================================================

/-- States reachable from world initialisation via the public operations that
mutate agents, tiles, attacks or trades. -/
inductive Reach : Store → Prop
  | init (terrainOf : Int → Int → Terrain) : Reach (initialStore terrainOf)
  | step_join (s : Store) (agentId displayName : String) :
      Reach s → Reach (joinAgent s agentId displayName).2
  | step_action (s : Store) (now : Int) (agentId : String) (raw : RawAction) :
      Reach s → Reach (submitAction s now agentId raw).2
  | step_tick (s : Store) (now : Int) : Reach s → Reach (processTick s now)
  | step_expand_grid (s : Store) (terrainOf : Int → Int → Terrain) (rings : Int) :
      Reach s → Reach (expandGrid s terrainOf rings)

-- ===========================================================================
-- CONCRETE STORES (inputs for witnesses and counterexamples)
-- ===========================================================================

def baseGameState : GameState :=
  { current_tick := 0, last_tick_at := some 0, tick_interval_hours := 2, grid_radius := 8 }

def wAlice : Agent := ⟨"alice", "Alice", 100, 50, none, none, none⟩
def wBob : Agent := ⟨"bob", "Bob", 1, 0, none, none, none⟩
def wEve : Agent := ⟨"eve", "Eve", 100, 0, none, none, none⟩
def wCarl : Agent := ⟨"carl", "Carl", 10, 0, none, none, none⟩
def wDan : Agent := ⟨"dan", "Dan", 100, 5, none, none, none⟩
def wErin : Agent := ⟨"erin", "Erin", 50, 60, none, none, none⟩

/-- Witness world for the expand action: Alice owns (0,0); (1,0) is an
unclaimed farmland tile adjacent to it. -/
def expandStore : Store :=
  ⟨[wAlice], [⟨0, 0, Terrain.barren, some "alice", 0⟩, ⟨1, 0, Terrain.farmland, none, 0⟩],
    [], [], [], [], baseGameState⟩

/-- Witness world for attack resolution: Eve has a due pending attack
(commitment 15) on Bob's capital tile (0,0); Bob also owns (1,0). -/
def attackStore : Store :=
  ⟨[wEve, ⟨"bob", "Bob", 1, 0, some 0, some 0, none⟩],
    [⟨0, 0, Terrain.farmland, some "bob", 0⟩, ⟨1, 0, Terrain.farmland, some "bob", 0⟩],
    [⟨1, "eve", 0, 0, 15, AttackStatus.pending, 0⟩], [], [], [], baseGameState⟩

/-- Family of worlds for tick-order analysis: like attackStore but with the
attack commitment as a parameter. -/
def tickStore (c : Int) : Store :=
  ⟨[wEve, wBob],
    [⟨0, 0, Terrain.farmland, some "bob", 0⟩, ⟨1, 0, Terrain.farmland, some "bob", 0⟩],
    [⟨1, "eve", 0, 0, c, AttackStatus.pending, 0⟩], [], [], [], baseGameState⟩

/-- Witness world for a self-targeted attack: Dave already owns the attacked
tile (5, 5), fortified to 5, and owns no tile adjacent to it. -/
def selfAttackStore : Store :=
  ⟨[⟨"dave", "Dave", 0, 0, none, none, none⟩],
    [⟨5, 5, Terrain.mine, some "dave", 5⟩],
    [⟨7, "dave", 5, 5, 16, AttackStatus.pending, 0⟩], [], [], [], baseGameState⟩

/-- Witness world for starvation: Carl owns five tiles and has 10 food
(upkeep 15), so he must lose ceil(5/3) = 2 tiles, barren first. -/
def starveStore : Store :=
  ⟨[⟨"carl", "Carl", 10, 0, some 1, some 5, none⟩],
    [⟨0, 5, Terrain.farmland, some "carl", 0⟩, ⟨1, 5, Terrain.barren, some "carl", 0⟩,
     ⟨2, 5, Terrain.mine, some "carl", 0⟩, ⟨3, 5, Terrain.mixed, some "carl", 0⟩,
     ⟨4, 5, Terrain.barren, some "carl", 0⟩],
    [], [], [], [], baseGameState⟩

/-- Witness world for trade acceptance: Dan offered Erin 30 food for
20 metal; the trade is pending and unexpired at time 1. -/
def tradeStore : Store :=
  ⟨[wDan, wErin], [],
    [], [⟨1, "dan", "erin", 30, 0, 0, 20, TradeStatus.pending, some 24⟩], [], [], baseGameState⟩

/-- Witness world for tile gifting: Alice owns (0,0) fortified to 5 and Bob
is another registered agent. -/
def giftStore : Store :=
  ⟨[wAlice, wBob], [⟨0, 0, Terrain.barren, some "alice", 5⟩], [], [], [], [], baseGameState⟩

/-- Raw expand request aimed at a tile that does not exist. -/
def badExpandRaw : RawAction :=
  { type := some "expand", target_q := some 5, target_r := some 5 }

/-- A concrete terrain draw for witnesses over the generated grid. -/
def allBarren : Int → Int → Terrain := fun _ _ => Terrain.barren

-- ===========================================================================
-- BASIC STORE LEMMAS
-- ===========================================================================

theorem tiles_updateAgents (s : Store) (aid : String) (f : Agent → Agent) :
    (updateAgents s aid f).tiles = s.tiles := rfl

theorem attacks_updateAgents (s : Store) (aid : String) (f : Agent → Agent) :
    (updateAgents s aid f).attacks = s.attacks := rfl

theorem trades_updateAgents (s : Store) (aid : String) (f : Agent → Agent) :
    (updateAgents s aid f).trades = s.trades := rfl

theorem agents_updateTiles (s : Store) (q r : Int) (f : Tile → Tile) :
    (updateTiles s q r f).agents = s.agents := rfl

theorem attacks_updateTiles (s : Store) (q r : Int) (f : Tile → Tile) :
    (updateTiles s q r f).attacks = s.attacks := rfl

theorem tiles_logEvent (s : Store) (actorId : Option String) (ty : String) :
    (logEvent s actorId ty).tiles = s.tiles := rfl

theorem agents_logEvent (s : Store) (actorId : Option String) (ty : String) :
    (logEvent s actorId ty).agents = s.agents := rfl

theorem attacks_logEvent (s : Store) (actorId : Option String) (ty : String) :
    (logEvent s actorId ty).attacks = s.attacks := rfl

theorem tiles_clearCapitalIfLost (s : Store) (aid : String) (q r : Int) :
    (clearCapitalIfLost s aid q r).tiles = s.tiles := by
  unfold clearCapitalIfLost
  split
  · rfl
  · split <;> rfl

theorem attacks_clearCapitalIfLost (s : Store) (aid : String) (q r : Int) :
    (clearCapitalIfLost s aid q r).attacks = s.attacks := by
  unfold clearCapitalIfLost
  split
  · rfl
  · split <;> rfl

theorem trades_clearCapitalIfLost (s : Store) (aid : String) (q r : Int) :
    (clearCapitalIfLost s aid q r).trades = s.trades := by
  unfold clearCapitalIfLost
  split
  · rfl
  · split <;> rfl

theorem agentResources_map_clearCapitalIfLost (s : Store) (aid : String) (q r : Int) :
    (clearCapitalIfLost s aid q r).agents.map agentResources = s.agents.map agentResources := by
  unfold clearCapitalIfLost
  split
  · rfl
  · split
    · show (s.agents.map _).map agentResources = _
      rw [List.map_map]
      exact List.map_congr_left fun a _ => by
        dsimp only [Function.comp]
        split <;> rfl
    · rfl

-- ===========================================================================
-- LOOKUP / UPDATE COMMUTATION
-- ===========================================================================

theorem find?_agents_map (l : List Agent) (g : Agent → Agent)
    (hg : ∀ a, (g a).id = a.id) (x : String) :
    (l.map g).find? (fun a => a.id == x) = (l.find? (fun a => a.id == x)).map g := by
  rw [List.find?_map]
  have hp : ((fun a => a.id == x) ∘ g) = (fun a : Agent => a.id == x) :=
    funext fun a => by simp only [Function.comp_apply, hg a]
  rw [hp]

theorem getAgent_updateAgents (s : Store) (aid : String) (f : Agent → Agent)
    (hf : ∀ a, (f a).id = a.id) (x : String) :
    getAgent (updateAgents s aid f) x =
      (getAgent s x).map (fun a => if a.id == aid then f a else a) := by
  show ((s.agents.map _).find? _) = _
  exact find?_agents_map s.agents _
    (fun a => by
      show (if a.id == aid then f a else a).id = a.id
      split
      exacts [hf a, rfl]) x

theorem find?_tiles_map (l : List Tile) (g : Tile → Tile)
    (hg : ∀ t, (g t).q = t.q ∧ (g t).r = t.r) (x y : Int) :
    (l.map g).find? (fun t => t.q == x && t.r == y) =
      (l.find? (fun t => t.q == x && t.r == y)).map g := by
  rw [List.find?_map]
  have hp : ((fun t => t.q == x && t.r == y) ∘ g) = (fun t : Tile => t.q == x && t.r == y) :=
    funext fun t => by simp only [Function.comp_apply, (hg t).1, (hg t).2]
  rw [hp]

theorem getTile_updateTiles (s : Store) (q r : Int) (f : Tile → Tile)
    (hf : ∀ t, (f t).q = t.q ∧ (f t).r = t.r) (x y : Int) :
    getTile (updateTiles s q r f) x y =
      (getTile s x y).map (fun t => if t.q == q && t.r == r then f t else t) := by
  show ((s.tiles.map _).find? _) = _
  exact find?_tiles_map s.tiles _
    (fun t => by
      show ((if t.q == q && t.r == r then f t else t).q = t.q ∧ (if t.q == q && t.r == r then f t else t).r = t.r)
      split
      exacts [hf t, ⟨rfl, rfl⟩]) x y

theorem getTile_updateAgents (s : Store) (aid : String) (f : Agent → Agent) (x y : Int) :
    getTile (updateAgents s aid f) x y = getTile s x y := rfl

theorem getAgent_updateTiles (s : Store) (q r : Int) (f : Tile → Tile) (x : String) :
    getAgent (updateTiles s q r f) x = getAgent s x := rfl

theorem getTile_logEvent (s : Store) (actorId : Option String) (ty : String) (x y : Int) :
    getTile (logEvent s actorId ty) x y = getTile s x y := rfl

theorem getAgent_logEvent (s : Store) (actorId : Option String) (ty : String) (x : String) :
    getAgent (logEvent s actorId ty) x = getAgent s x := rfl

theorem getTile_clearCapitalIfLost (s : Store) (aid : String) (q r : Int) (x y : Int) :
    getTile (clearCapitalIfLost s aid q r) x y = getTile s x y := by
  unfold getTile
  rw [tiles_clearCapitalIfLost]

-- ===========================================================================
-- EXPAND: branch characterisations
-- ===========================================================================

theorem expand_fail_store (s : Store) (agent : Agent) (tq tr : Int) :
    (expand s agent tq tr).1.success = false → (expand s agent tq tr).2 = s := by
  unfold expand
  split
  · intro _; rfl
  · split
    · intro _; rfl
    · split
      · intro _; rfl
      · split
        · intro _; rfl
        · split
          · intro _; rfl
          · intro h; simp at h

theorem expand_success_eq (s : Store) (agent : Agent) (tq tr : Int) (tile : Tile)
    (ht : getTile s tq tr = some tile) (h1 : tile.owner_id = none)
    (h2 : hasAdjacentTerritory s agent.id tq tr = true)
    (h3 : EXPAND_FOOD_COST ≤ agent.food) (h4 : EXPAND_METAL_COST ≤ agent.metal) :
    expand s agent tq tr =
      (⟨true, "Successfully expanded"⟩,
        logEvent
          (updateTiles (updateAgentResources s agent.id (-EXPAND_FOOD_COST) (-EXPAND_METAL_COST))
            tq tr (fun t => { t with owner_id := some agent.id }))
          (some agent.id) "expand") := by
  unfold expand
  rw [ht]
  simp only [h1, Option.isSome_none, Bool.false_eq_true, if_false, h2, Bool.not_true,
    if_neg (by omega : ¬ agent.food < EXPAND_FOOD_COST),
    if_neg (by omega : ¬ agent.metal < EXPAND_METAL_COST)]

theorem expand_success_iff (s : Store) (agent : Agent) (tq tr : Int) :
    (expand s agent tq tr).1.success = true ↔
      (∃ tile, getTile s tq tr = some tile ∧ tile.owner_id = none)
      ∧ hasAdjacentTerritory s agent.id tq tr = true
      ∧ EXPAND_FOOD_COST ≤ agent.food ∧ EXPAND_METAL_COST ≤ agent.metal := by
  unfold expand
  split
  next heq =>
    simp only [heq]
    simp
  next tile heq =>
    simp only [heq]
    constructor
    · intro h
      split at h
      · simp at h
      · split at h
        · simp at h
        · split at h
          · simp at h
          · split at h
            · simp at h
            · refine ⟨⟨tile, rfl, ?_⟩, ?_, ?_, ?_⟩ <;> simp_all
    · rintro ⟨⟨tile2, htile2, hnone⟩, hadj, hf, hm⟩
      have : tile2 = tile := (Option.some.inj htile2).symm
      subst this
      rw [if_neg (by simp [hnone]), if_neg (by simp [hadj]),
        if_neg (by omega : ¬ agent.food < EXPAND_FOOD_COST),
        if_neg (by omega : ¬ agent.metal < EXPAND_METAL_COST)]

/-- C7: Expand(target q,r) fails exactly when the target tile does not exist,
is already owned, the agent owns no tile adjacent to the target, or the
agent has less than 20 food or less than 10 metal; on success it deducts
20 food and 10 metal, sets the tile's owner to the agent, and logs an
expand event (so an agent with 100 food / 50 metal ends with 80 / 40). -/
theorem c7_expand_action (s : Store) (agent : Agent) (tq tr : Int)
    (hagent : getAgent s agent.id = some agent) :
    (EXPAND_FOOD_COST = 20 ∧ EXPAND_METAL_COST = 10)
    ∧ ((expand s agent tq tr).1.success = true ↔
        (∃ tile, getTile s tq tr = some tile ∧ tile.owner_id = none)
        ∧ hasAdjacentTerritory s agent.id tq tr = true
        ∧ EXPAND_FOOD_COST ≤ agent.food ∧ EXPAND_METAL_COST ≤ agent.metal)
    ∧ ((expand s agent tq tr).1.success = false → (expand s agent tq tr).2 = s)
    ∧ (∀ tile, getTile s tq tr = some tile → tile.owner_id = none →
        hasAdjacentTerritory s agent.id tq tr = true →
        EXPAND_FOOD_COST ≤ agent.food → EXPAND_METAL_COST ≤ agent.metal →
        (getAgent (expand s agent tq tr).2 agent.id).map (fun a => (a.food, a.metal))
            = some (agent.food - EXPAND_FOOD_COST, agent.metal - EXPAND_METAL_COST)
        ∧ getTile (expand s agent tq tr).2 tq tr = some { tile with owner_id := some agent.id }
        ∧ EventRec.mk "expand" (some agent.id) ∈ (expand s agent tq tr).2.events) := by
  refine ⟨⟨rfl, rfl⟩, expand_success_iff s agent tq tr, expand_fail_store s agent tq tr, ?_⟩
  intro tile ht h1 h2 h3 h4
  rw [expand_success_eq s agent tq tr tile ht h1 h2 h3 h4]
  dsimp only
  refine ⟨?_, ?_, ?_⟩
  · rw [getAgent_logEvent, getAgent_updateTiles]
    unfold updateAgentResources
    rw [getAgent_updateAgents s agent.id
      (fun a => { a with food := a.food + -EXPAND_FOOD_COST, metal := a.metal + -EXPAND_METAL_COST })
      (fun a => rfl) agent.id, hagent]
    simp
    omega
  · rw [getTile_logEvent,
      getTile_updateTiles (updateAgentResources s agent.id (-EXPAND_FOOD_COST) (-EXPAND_METAL_COST))
        tq tr (fun t => { t with owner_id := some agent.id }) (fun t => ⟨rfl, rfl⟩) tq tr]
    have hsame : getTile (updateAgentResources s agent.id (-EXPAND_FOOD_COST) (-EXPAND_METAL_COST)) tq tr
        = getTile s tq tr := rfl
    rw [hsame, ht]
    have hpred := List.find?_some ht
    simp at hpred
    simp [hpred]
  · simp [logEvent]

/-- Witness for C7 at a concrete world: Alice with 100 food / 50 metal
expands onto the adjacent unclaimed farmland tile (1,0) and ends with
80 food / 40 metal. -/
theorem c7_expand_action_witness :
    getAgent expandStore wAlice.id = some wAlice
    ∧ (expand expandStore wAlice 1 0).1.success = true
    ∧ (getAgent (expand expandStore wAlice 1 0).2 "alice").map (fun a => (a.food, a.metal))
        = some (80, 40) := by
  have h := c7_expand_action expandStore wAlice 1 0 (by decide)
  refine ⟨by decide, by decide, ?_⟩
  have h2 := (h.2.2.2 ⟨1, 0, Terrain.farmland, none, 0⟩ (by decide) rfl (by decide)
    (by decide) (by decide)).1
  simpa using h2

-- ===========================================================================
-- ATTACK RESOLUTION: characterisations of resolveOne and the tick fold
-- ===========================================================================

theorem tiles_updateAttackStatus (s : Store) (attackId : Nat) (st : AttackStatus) :
    (updateAttackStatus s attackId st).tiles = s.tiles := rfl

theorem agents_updateAttackStatus (s : Store) (attackId : Nat) (st : AttackStatus) :
    (updateAttackStatus s attackId st).agents = s.agents := rfl

theorem attacks_resolveOne (s : Store) (att : Attack) :
    (resolveOne s att).attacks =
      s.attacks.map (fun a =>
        if a.id == att.id then { a with status := AttackStatus.resolved } else a) := by
  unfold resolveOne
  split
  · rfl
  · dsimp only
    split
    · show (updateAttackStatus _ _ _).attacks = _
      unfold updateAttackStatus
      dsimp only
      congr 1
      cases howner : (_ : Tile).owner_id with
      | none => rw [attacks_logEvent, attacks_updateTiles]
      | some p =>
        rw [attacks_clearCapitalIfLost, attacks_logEvent, attacks_updateTiles]
    · rfl

theorem resolvedIn_of_attacks_map (s : Store) (attackId : Nat)
    (l : List Attack)
    (h : s.attacks = l.map (fun a =>
      if a.id == attackId then { a with status := AttackStatus.resolved } else a)) :
    resolvedIn s attackId := by
  intro a ha hid
  rw [h] at ha
  obtain ⟨b, _, rfl⟩ := List.mem_map.mp ha
  by_cases hb : b.id = attackId
  · simp [hb]
  · exfalso
    apply hb
    revert hid
    simp [hb]

theorem resolvedIn_resolveOne_self (s : Store) (att : Attack) :
    resolvedIn (resolveOne s att) att.id :=
  resolvedIn_of_attacks_map _ _ s.attacks (attacks_resolveOne s att)

theorem resolvedIn_resolveOne_mono (s : Store) (att : Attack) (attackId : Nat)
    (h : resolvedIn s attackId) : resolvedIn (resolveOne s att) attackId := by
  intro a ha hid
  rw [attacks_resolveOne] at ha
  obtain ⟨b, hb, rfl⟩ := List.mem_map.mp ha
  by_cases hcase : b.id == att.id
  · simp [hcase]
  · simp only [hcase, Bool.false_eq_true, if_false] at hid ⊢
    exact h b hb hid

theorem resolvedIn_foldl_mono (L : List Attack) (s : Store) (attackId : Nat)
    (h : resolvedIn s attackId) : resolvedIn (L.foldl resolveOne s) attackId := by
  induction L generalizing s with
  | nil => exact h
  | cons b L ih => exact ih (resolveOne s b) (resolvedIn_resolveOne_mono s b attackId h)

theorem resolvedIn_foldl_of_mem (L : List Attack) (s : Store) (att : Attack)
    (hmem : att ∈ L) : resolvedIn (L.foldl resolveOne s) att.id := by
  induction L generalizing s with
  | nil => cases hmem
  | cons b L ih =>
    rcases List.mem_cons.mp hmem with h | h
    · subst h
      exact resolvedIn_foldl_mono L (resolveOne s att) att.id (resolvedIn_resolveOne_self s att)
    · exact ih (resolveOne s b) h

theorem agentResources_map_resolveOne (s : Store) (att : Attack) :
    (resolveOne s att).agents.map agentResources = s.agents.map agentResources := by
  unfold resolveOne
  split
  · rfl
  · dsimp only
    split
    · show ((updateAttackStatus _ _ _).agents.map agentResources) = _
      rw [agents_updateAttackStatus]
      cases howner : (_ : Tile).owner_id with
      | none => rfl
      | some p =>
        rw [agentResources_map_clearCapitalIfLost]
        rfl
    · rfl

theorem agentResources_map_resolveAttacksStep (s : Store) (now : Int) :
    (resolveAttacksStep s now).agents.map agentResources = s.agents.map agentResources := by
  unfold resolveAttacksStep
  generalize getPendingAttacksToResolve s now = L
  induction L generalizing s with
  | nil => rfl
  | cons b L ih =>
    show ((L.foldl resolveOne (resolveOne s b)).agents.map agentResources) = _
    rw [ih (resolveOne s b), agentResources_map_resolveOne]

theorem tiles_resolveOne_fail (s : Store) (att : Attack) (tile : Tile)
    (ht : getTile s att.target_q att.target_r = some tile)
    (hc : ¬ att.commitment > BASE_TILE_DEFENSE + tile.fortification) :
    (resolveOne s att).tiles = s.tiles := by
  unfold resolveOne
  rw [ht]
  dsimp only
  rw [if_neg hc]
  rfl

theorem getTile_resolveOne_capture (s : Store) (att : Attack) (tile : Tile)
    (ht : getTile s att.target_q att.target_r = some tile)
    (hc : att.commitment > BASE_TILE_DEFENSE + tile.fortification) :
    getTile (resolveOne s att) att.target_q att.target_r
      = some { tile with owner_id := some att.attacker_id, fortification := 0 } := by
  unfold resolveOne
  rw [ht]
  dsimp only
  rw [if_pos hc]
  show getTile (updateAttackStatus _ _ _) _ _ = _
  have hchain : getTile (updateAttackStatus
      (match tile.owner_id with
        | some p => clearCapitalIfLost
            (logEvent (updateTiles s att.target_q att.target_r
              (fun t => { t with owner_id := some att.attacker_id, fortification := 0 }))
              (some att.attacker_id) "attack_success") p att.target_q att.target_r
        | none => logEvent (updateTiles s att.target_q att.target_r
              (fun t => { t with owner_id := some att.attacker_id, fortification := 0 }))
              (some att.attacker_id) "attack_success")
      att.id AttackStatus.resolved) att.target_q att.target_r
      = getTile (updateTiles s att.target_q att.target_r
          (fun t => { t with owner_id := some att.attacker_id, fortification := 0 }))
          att.target_q att.target_r := by
    cases tile.owner_id with
    | none => rfl
    | some p =>
      show getTile (clearCapitalIfLost _ p _ _) _ _ = _
      rw [getTile_clearCapitalIfLost]
      rfl
  rw [hchain,
    getTile_updateTiles s att.target_q att.target_r
      (fun t => { t with owner_id := some att.attacker_id, fortification := 0 })
      (fun t => ⟨rfl, rfl⟩) att.target_q att.target_r, ht]
  have hpred := List.find?_some ht
  simp at hpred
  simp [hpred]

theorem getAgent_resolveOne_capital_cleared (s : Store) (att : Attack) (tile : Tile)
    (ht : getTile s att.target_q att.target_r = some tile)
    (hc : att.commitment > BASE_TILE_DEFENSE + tile.fortification)
    (p : String) (d : Agent) (howner : tile.owner_id = some p)
    (hd : getAgent s p = some d)
    (hq : d.capital_q = some att.target_q) (hr : d.capital_r = some att.target_r) :
    getAgent (resolveOne s att) p = some { d with capital_q := none, capital_r := none } := by
  unfold resolveOne
  rw [ht]
  dsimp only
  rw [if_pos hc, howner]
  show getAgent (updateAttackStatus (clearCapitalIfLost _ p _ _) _ _) p = _
  have hgets2 : getAgent (logEvent (updateTiles s att.target_q att.target_r
      (fun t => { t with owner_id := some att.attacker_id, fortification := 0 }))
      (some att.attacker_id) "attack_success") p = some d := hd
  show getAgent (clearCapitalIfLost _ p _ _) p = _
  unfold clearCapitalIfLost
  rw [hgets2]
  dsimp only
  rw [if_pos (by simp [hq, hr] :
    (d.capital_q == some att.target_q && d.capital_r == some att.target_r) = true)]
  rw [getAgent_updateAgents _ p
    (fun b => { b with capital_q := none, capital_r := none }) (fun b => rfl) p, hgets2]
  have hid : d.id = p := by
    have := List.find?_some hd
    simpa using this
  simp [hid]

theorem attacks_loseTile (agentId : String) (s : Store) (t : Tile) :
    (loseTile agentId s t).attacks = s.attacks := by
  unfold loseTile
  rw [attacks_logEvent, attacks_clearCapitalIfLost, attacks_updateTiles]

theorem attacks_foldl_loseTile (agentId : String) (L : List Tile) (s : Store) :
    (L.foldl (loseTile agentId) s).attacks = s.attacks := by
  induction L generalizing s with
  | nil => rfl
  | cons t L ih =>
    show ((L.foldl (loseTile agentId) (loseTile agentId s t)).attacks) = _
    rw [ih (loseTile agentId s t), attacks_loseTile]

theorem attacks_produceAgentStep (s : Store) (agentId : String) :
    (produceAgentStep s agentId).attacks = s.attacks := by
  simp only [produceAgentStep]
  split <;> rfl

theorem attacks_productionStep (s : Store) (agentIds : List String) :
    (productionStep s agentIds).attacks = s.attacks := by
  unfold productionStep
  induction agentIds generalizing s with
  | nil => rfl
  | cons x L ih =>
    show ((L.foldl produceAgentStep (produceAgentStep s x)).attacks) = _
    rw [ih (produceAgentStep s x), attacks_produceAgentStep]

theorem attacks_upkeepAgentStep (s : Store) (agentId : String) :
    (upkeepAgentStep s agentId).attacks = s.attacks := by
  simp only [upkeepAgentStep]
  split
  · split
    · rfl
    · split
      · rfl
      · rw [attacks_foldl_loseTile]
        rfl
  · rfl

theorem attacks_upkeepStep (s : Store) (agentIds : List String) :
    (upkeepStep s agentIds).attacks = s.attacks := by
  unfold upkeepStep
  induction agentIds generalizing s with
  | nil => rfl
  | cons x L ih =>
    show ((L.foldl upkeepAgentStep (upkeepAgentStep s x)).attacks) = _
    rw [ih (upkeepAgentStep s x), attacks_upkeepAgentStep]

theorem attacks_processTick (s : Store) (now : Int) :
    (processTick s now).attacks = (resolveAttacksStep s now).attacks := by
  unfold processTick advanceGameStep expireTradesStep logEvent
  dsimp only
  rw [attacks_upkeepStep, attacks_productionStep]

theorem resolvedIn_processTick (s : Store) (now : Int) (att : Attack)
    (hmem : att ∈ s.attacks) (hstatus : att.status = AttackStatus.pending)
    (hdue : att.resolves_at ≤ now)
    (hsome : (getTile s att.target_q att.target_r).isSome = true) :
    resolvedIn (processTick s now) att.id := by
  have h1 : att ∈ getPendingAttacksToResolve s now :=
    List.mem_filter.mpr ⟨hmem, by simp [hstatus, hdue, hsome]⟩
  have h2 : resolvedIn (resolveAttacksStep s now) att.id :=
    resolvedIn_foldl_of_mem _ s att h1
  intro a ha hid
  rw [attacks_processTick] at ha
  exact h2 a ha hid

/-- C1: for a pending attack whose deadline has passed, resolution is
deterministic in the commitment and the tile state at resolution time:
commitment > 10 + fortification captures the tile (owner := attacker,
fortification reset to 0, previous owner's capital cleared when that tile
was the capital); otherwise the tile is unchanged.  The attack is marked
resolved in both cases, and resolution never touches any agent's food or
metal, so the commitment deducted at declaration is never refunded. -/
theorem c1_attack_resolution (s : Store) (now : Int) (att : Attack) (tile : Tile)
    (hmem : att ∈ s.attacks) (hstatus : att.status = AttackStatus.pending)
    (hdue : att.resolves_at ≤ now)
    (ht : getTile s att.target_q att.target_r = some tile) :
    BASE_TILE_DEFENSE = 10
    ∧ (att.commitment > BASE_TILE_DEFENSE + tile.fortification →
        getTile (resolveOne s att) att.target_q att.target_r
          = some { tile with owner_id := some att.attacker_id, fortification := 0 }
        ∧ (∀ p d, tile.owner_id = some p → getAgent s p = some d →
            d.capital_q = some att.target_q → d.capital_r = some att.target_r →
            getAgent (resolveOne s att) p
              = some { d with capital_q := none, capital_r := none }))
    ∧ (¬ att.commitment > BASE_TILE_DEFENSE + tile.fortification →
        (resolveOne s att).tiles = s.tiles)
    ∧ (resolveOne s att).agents.map agentResources = s.agents.map agentResources
    ∧ (resolveAttacksStep s now).agents.map agentResources = s.agents.map agentResources
    ∧ resolvedIn (resolveOne s att) att.id
    ∧ resolvedIn (processTick s now) att.id := by
  refine ⟨rfl, ?_, ?_, agentResources_map_resolveOne s att,
    agentResources_map_resolveAttacksStep s now,
    resolvedIn_resolveOne_self s att,
    resolvedIn_processTick s now att hmem hstatus hdue (by rw [ht]; rfl)⟩
  · intro hc
    exact ⟨getTile_resolveOne_capture s att tile ht hc,
      fun p d howner hd hq hr =>
        getAgent_resolveOne_capital_cleared s att tile ht hc p d howner hd hq hr⟩
  · intro hc
    exact tiles_resolveOne_fail s att tile ht hc

/-- Witness for C1: Eve's due attack with commitment 15 on Bob's unfortified
capital tile (0,0) captures it, resets fortification, clears Bob's capital,
marks the attack resolved, and leaves every resource balance unchanged. -/
theorem c1_attack_resolution_witness :
    (⟨1, "eve", 0, 0, 15, AttackStatus.pending, 0⟩ : Attack) ∈ attackStore.attacks
    ∧ getTile attackStore 0 0 = some ⟨0, 0, Terrain.farmland, some "bob", 0⟩
    ∧ getTile (resolveOne attackStore ⟨1, "eve", 0, 0, 15, AttackStatus.pending, 0⟩) 0 0
        = some ⟨0, 0, Terrain.farmland, some "eve", 0⟩
    ∧ getAgent (resolveOne attackStore ⟨1, "eve", 0, 0, 15, AttackStatus.pending, 0⟩) "bob"
        = some ⟨"bob", "Bob", 1, 0, none, none, none⟩
    ∧ resolvedIn (processTick attackStore 5) 1 := by
  have h := c1_attack_resolution attackStore 5 ⟨1, "eve", 0, 0, 15, AttackStatus.pending, 0⟩
    ⟨0, 0, Terrain.farmland, some "bob", 0⟩ (by decide) rfl (by decide) (by decide)
  have hcap := h.2.1 (by decide)
  exact ⟨by decide, by decide, hcap.1,
    hcap.2 "bob" ⟨"bob", "Bob", 1, 0, some 0, some 0, none⟩ rfl (by decide) rfl rfl,
    h.2.2.2.2.2.2⟩

/-- C10: tick-time resolution re-checks no declaration precondition: only the
commitment-versus-defense comparison is evaluated, so even when the attacker
already owns the target tile and owns no adjacent tile, a winning commitment
"captures" the tile from the attacker, re-assigning it to its current owner
and resetting its fortification to 0, and the attack is marked resolved. -/
theorem c10_no_precondition_recheck (s : Store) (now : Int) (att : Attack) (tile : Tile)
    (hmem : att ∈ s.attacks) (hstatus : att.status = AttackStatus.pending)
    (hdue : att.resolves_at ≤ now)
    (ht : getTile s att.target_q att.target_r = some tile)
    (howner : tile.owner_id = some att.attacker_id)
    (_hadj : hasAdjacentTerritory s att.attacker_id att.target_q att.target_r = false)
    (hc : att.commitment > BASE_TILE_DEFENSE + tile.fortification) :
    getTile (resolveOne s att) att.target_q att.target_r
      = some { tile with fortification := 0 }
    ∧ resolvedIn (processTick s now) att.id := by
  constructor
  · have hcap := getTile_resolveOne_capture s att tile ht hc
    rw [← howner] at hcap
    exact hcap
  · exact resolvedIn_processTick s now att hmem hstatus hdue (by rw [ht]; rfl)

/-- Witness for C10: Dave already owns the fortified tile (5,5), owns nothing
adjacent to it, yet his own due attack with commitment 16 > 15 "succeeds",
leaving him owner and wiping the 5 fortification points. -/
theorem c10_no_precondition_recheck_witness :
    hasAdjacentTerritory selfAttackStore "dave" 5 5 = false
    ∧ getTile (resolveOne selfAttackStore ⟨7, "dave", 5, 5, 16, AttackStatus.pending, 0⟩) 5 5
        = some ⟨5, 5, Terrain.mine, some "dave", 0⟩
    ∧ resolvedIn (processTick selfAttackStore 5) 7 := by
  have h := c10_no_precondition_recheck selfAttackStore 5
    ⟨7, "dave", 5, 5, 16, AttackStatus.pending, 0⟩ ⟨5, 5, Terrain.mine, some "dave", 5⟩
    (by decide) rfl (by decide) (by decide) rfl (by decide) (by decide)
  exact ⟨by decide, h.1, h.2⟩

-- ===========================================================================
-- TICK ORDER (C2)
-- ===========================================================================

/-- Counterexample to C2 as stated: in the tick run on tickStore 15 at time
5, tile (0,0) is owned by Bob before the tick and captured by Eve during the
tick, yet Eve ends the very same tick with food 107 = 100 + 10 (farmland
production of the tile captured this tick) - 3 (upkeep).  Under the claim
(captured tiles produce for their new owner only from the next tick) Eve
would end with 97; production re-reads ownership after attack resolution, so
the captured tile produces for its new owner immediately. -/
theorem c2_same_tick_production_cex :
    getTile (tickStore 15) 0 0 = some ⟨0, 0, Terrain.farmland, some "bob", 0⟩
    ∧ getTile (processTick (tickStore 15) 5) 0 0
        = some ⟨0, 0, Terrain.farmland, some "eve", 0⟩
    ∧ (getAgent (processTick (tickStore 15) 5) "eve").map (fun a => a.food) = some 107 := by
  refine ⟨by decide, by decide, by decide⟩

/-- C2 (amended): the tick runs attacks, then production, then upkeep, then
trade expiry, then the counter advance, in that order; but because the
production and upkeep steps re-read tile ownership after attack resolution,
a tile captured during a tick already produces for its new owner in that
same tick (Eve: 100 + 10 - 3 = 107 for any winning commitment c > 10), and
upkeep is evaluated on post-income food (Bob keeps (1,0) with food
1 + 10 - 3 = 8 even though his pre-tick food 1 is below the upkeep cost). -/
theorem c2_tick_order (c : Int) (hc : c > 10) :
    processTick (tickStore c) 5
      = advanceGameStep
          (expireTradesStep
            (upkeepStep
              (productionStep (resolveAttacksStep (tickStore c) 5)
                ((resolveAttacksStep (tickStore c) 5).agents.map (fun a => a.id)))
              ((resolveAttacksStep (tickStore c) 5).agents.map (fun a => a.id)))
            5)
          ((tickStore c).gameState.current_tick + 1) 5
    ∧ (processTick (tickStore c) 5).gameState.current_tick = 1
    ∧ getTile (processTick (tickStore c) 5) 0 0
        = some ⟨0, 0, Terrain.farmland, some "eve", 0⟩
    ∧ (getAgent (processTick (tickStore c) 5) "eve").map (fun a => a.food) = some 107
    ∧ (getAgent (processTick (tickStore c) 5) "bob").map (fun a => a.food) = some 8
    ∧ getTile (processTick (tickStore c) 5) 1 0
        = some ⟨1, 0, Terrain.farmland, some "bob", 0⟩ := by
  have hp : getPendingAttacksToResolve (tickStore c) 5
      = [⟨1, "eve", 0, 0, c, AttackStatus.pending, 0⟩] := by
    simp [getPendingAttacksToResolve, tickStore, getTile, baseGameState]
  have h1 : resolveAttacksStep (tickStore c) 5 =
      ⟨[wEve, wBob],
        [⟨0, 0, Terrain.farmland, some "eve", 0⟩, ⟨1, 0, Terrain.farmland, some "bob", 0⟩],
        [⟨1, "eve", 0, 0, c, AttackStatus.resolved, 0⟩], [], [],
        [⟨"attack_success", some "eve"⟩], baseGameState⟩ := by
    unfold resolveAttacksStep
    rw [hp, List.foldl_cons, List.foldl_nil]
    unfold resolveOne
    rw [show getTile (tickStore c) 0 0 = some ⟨0, 0, Terrain.farmland, some "bob", 0⟩ from rfl]
    dsimp only
    rw [if_pos (by simpa [BASE_TILE_DEFENSE] using hc)]
    rfl
  refine ⟨rfl, ?_, ?_, ?_, ?_, ?_⟩ <;>
  · simp only [processTick]
    rw [h1]
    simp [productionStep, upkeepStep, produceAgentStep, upkeepAgentStep, expireTradesStep,
      advanceGameStep, logEvent, updateAgentResources, updateAgents, getAgent, getTile,
      calculateResourceProduction, FARMLAND_FOOD, MINE_METAL, MIXED_FOOD, MIXED_METAL,
      BARREN_FOOD, UPKEEP_FOOD_PER_TILE, wEve, wBob, baseGameState, sortTilesByValue,
      tickStore]

/-- Witness for C2 (amended) at commitment 15. -/
theorem c2_tick_order_witness :
    ((15 : Int) > 10)
    ∧ (processTick (tickStore 15) 5).gameState.current_tick = 1
    ∧ (getAgent (processTick (tickStore 15) 5) "bob").map (fun a => a.food) = some 8 := by
  have h := c2_tick_order 15 (by decide)
  exact ⟨by decide, h.2.1, h.2.2.2.2.1⟩

-- ===========================================================================
-- SCHEDULER (C8)
-- ===========================================================================

theorem current_tick_processTick (s : Store) (now : Int) :
    (processTick s now).gameState.current_tick = s.gameState.current_tick + 1 := rfl

/-- Counterexample to C8 as stated: the manual trigger is not idempotent.
Triggering it twice on the same world does not equal triggering it once (the
tick counter advances to 2 instead of 1, and production/upkeep run again). -/
theorem c8_manual_trigger_not_idempotent_cex :
    triggerTickManually (triggerTickManually expandStore 1) 1 ≠ triggerTickManually expandStore 1
    ∧ (triggerTickManually expandStore 1).gameState.current_tick = 1
    ∧ (triggerTickManually (triggerTickManually expandStore 1) 1).gameState.current_tick = 2 := by
  refine ⟨by decide, by decide, by decide⟩

/-- C8 (amended): the manual trigger runs the same full tick-processor logic
as the timer-driven path, independent of elapsed time — when the interval
check says no tick is due the timer path does nothing while the manual
trigger still processes a tick — but it is not idempotent: every trigger
advances the tick counter by one (and re-runs production and upkeep). -/
theorem c8_manual_trigger (s : Store) (now : Int) :
    (shouldProcessTick s now = false → checkAndProcessTick s now = s)
    ∧ (shouldProcessTick s now = true →
        checkAndProcessTick s now = triggerTickManually s now)
    ∧ (triggerTickManually s now).gameState.current_tick = s.gameState.current_tick + 1
    ∧ (triggerTickManually (triggerTickManually s now) now).gameState.current_tick
        = s.gameState.current_tick + 2 := by
  refine ⟨?_, ?_, current_tick_processTick s now, ?_⟩
  · intro h
    unfold checkAndProcessTick
    rw [h]
    simp
  · intro h
    unfold checkAndProcessTick
    rw [h]
    simp
    rfl
  · show (processTick (processTick s now) now).gameState.current_tick = _
    rw [current_tick_processTick, current_tick_processTick]
    omega

/-- Witness for C8 (amended): at time 1 no tick is due on expandStore (last
tick at 0, interval 2 hours), the timer path does nothing, and the manual
trigger still advances the counter. -/
theorem c8_manual_trigger_witness :
    shouldProcessTick expandStore 1 = false
    ∧ checkAndProcessTick expandStore 1 = expandStore
    ∧ (triggerTickManually expandStore 1).gameState.current_tick
        = expandStore.gameState.current_tick + 1 := by
  have h := c8_manual_trigger expandStore 1
  exact ⟨by decide, h.1 (by decide), h.2.2.1⟩

-- ===========================================================================
-- FORTIFICATION ACROSS OWNERSHIP CHANGES (C5)
-- ===========================================================================

theorem giftTile_success_eq (s : Store) (agent : Agent) (tq tr : Int) (toId : String)
    (tile : Tile) (recipient : Agent)
    (ht : getTile s tq tr = some tile) (howner : tile.owner_id = some agent.id)
    (hrec : getAgent s toId = some recipient) (hne : recipient.id ≠ agent.id) :
    giftTile s agent tq tr toId =
      (⟨true, "Successfully gifted"⟩,
        logEvent (clearCapitalIfLost (updateTiles s tq tr
          (fun t => { t with owner_id := some recipient.id })) agent.id tq tr)
          (some agent.id) "gift") := by
  unfold giftTile
  rw [ht]
  dsimp only
  rw [if_neg (by simp [howner])]
  rw [hrec]
  dsimp only
  rw [if_neg (by simp [hne])]

/-- Counterexample to C5 as stated: gifting transfers ownership while
preserving fortification, so not every ownership change leaves the tile at
fortification 0 — Alice gifts her tile (0,0), fortified to 5, to Bob and
the tile arrives with owner Bob and fortification still 5. -/
theorem c5_ownership_change_cex :
    getTile giftStore 0 0 = some ⟨0, 0, Terrain.barren, some "alice", 5⟩
    ∧ (giftTile giftStore wAlice 0 0 "bob").1.success = true
    ∧ getTile (giftTile giftStore wAlice 0 0 "bob").2 0 0
        = some ⟨0, 0, Terrain.barren, some "bob", 5⟩ := by
  refine ⟨by decide, by decide, by decide⟩

/-- C5 (amended): a tile acquired by expand starts at fortification 0
(unclaimed tiles are unfortified in any state satisfying the tile
invariant), and a tile acquired by capture has its fortification reset to
0; but a tile acquired by gift keeps its previous fortification unchanged,
so ownership changes through gifts do not reset fortification. -/
theorem c5_fortification_on_ownership_change (s : Store) (agent : Agent) (tq tr : Int) :
    (∀ tile recipient toId, getTile s tq tr = some tile →
        tile.owner_id = some agent.id →
        getAgent s toId = some recipient → recipient.id ≠ agent.id →
        (giftTile s agent tq tr toId).1.success = true
        ∧ getTile (giftTile s agent tq tr toId).2 tq tr
            = some { tile with owner_id := some recipient.id })
    ∧ (TileInv s → ∀ tile, getTile s tq tr = some tile → tile.owner_id = none →
        hasAdjacentTerritory s agent.id tq tr = true →
        EXPAND_FOOD_COST ≤ agent.food → EXPAND_METAL_COST ≤ agent.metal →
        tile.fortification = 0
        ∧ getTile (expand s agent tq tr).2 tq tr
            = some { tile with owner_id := some agent.id })
    ∧ (∀ att tile, getTile s att.target_q att.target_r = some tile →
        att.commitment > BASE_TILE_DEFENSE + tile.fortification →
        getTile (resolveOne s att) att.target_q att.target_r
          = some { tile with owner_id := some att.attacker_id, fortification := 0 }) := by
  refine ⟨?_, ?_, fun att tile ht hc => getTile_resolveOne_capture s att tile ht hc⟩
  · intro tile recipient toId ht howner hrec hne
    rw [giftTile_success_eq s agent tq tr toId tile recipient ht howner hrec hne]
    refine ⟨rfl, ?_⟩
    rw [getTile_logEvent, getTile_clearCapitalIfLost,
      getTile_updateTiles s tq tr (fun t => { t with owner_id := some recipient.id })
        (fun t => ⟨rfl, rfl⟩) tq tr, ht]
    have hpred := List.find?_some ht
    simp at hpred
    simp [hpred]
  · intro hinv tile ht h1 h2 h3 h4
    have hfort : tile.fortification = 0 :=
      hinv tile (List.mem_of_find?_eq_some ht) h1
    refine ⟨hfort, ?_⟩
    rw [expand_success_eq s agent tq tr tile ht h1 h2 h3 h4]
    dsimp only
    rw [getTile_logEvent,
      getTile_updateTiles (updateAgentResources s agent.id (-EXPAND_FOOD_COST) (-EXPAND_METAL_COST))
        tq tr (fun t => { t with owner_id := some agent.id }) (fun t => ⟨rfl, rfl⟩) tq tr]
    have hsame : getTile (updateAgentResources s agent.id (-EXPAND_FOOD_COST) (-EXPAND_METAL_COST)) tq tr
        = getTile s tq tr := rfl
    rw [hsame, ht]
    have hpred := List.find?_some ht
    simp at hpred
    simp [hpred]

/-- Witness for C5 (amended): the gift leg on the concrete gift world — Bob
receives the tile with its 5 fortification points intact — and the capture
leg on the concrete attack world, where capture resets fortification to 0. -/
theorem c5_fortification_on_ownership_change_witness :
    (giftTile giftStore wAlice 0 0 "bob").1.success = true
    ∧ getTile (giftTile giftStore wAlice 0 0 "bob").2 0 0
        = some ⟨0, 0, Terrain.barren, some "bob", 5⟩
    ∧ getTile (resolveOne attackStore ⟨1, "eve", 0, 0, 15, AttackStatus.pending, 0⟩) 0 0
        = some ⟨0, 0, Terrain.farmland, some "eve", 0⟩ := by
  have h := c5_fortification_on_ownership_change giftStore wAlice 0 0
  have hgift := h.1 ⟨0, 0, Terrain.barren, some "alice", 5⟩ wBob "bob"
    (by decide) rfl (by decide) (by decide)
  have h2 := c5_fortification_on_ownership_change attackStore wEve 0 0
  have hcap := h2.2.2 ⟨1, "eve", 0, 0, 15, AttackStatus.pending, 0⟩
    ⟨0, 0, Terrain.farmland, some "bob", 0⟩ (by decide) (by decide)
  exact ⟨hgift.1, hgift.2, hcap⟩

-- ===========================================================================
-- TRADE ACCEPTANCE (C4)
-- ===========================================================================

theorem tradeExpired_iff (trade : Trade) (now : Int) :
    tradeExpired trade now = true ↔ ∃ e, trade.expires_at = some e ∧ e < now := by
  unfold tradeExpired
  cases trade.expires_at <;> simp

theorem sum_food_map_update (l : List Agent) (aid : String) (df dm : Int) :
    ((l.map (fun a => if a.id == aid
        then { a with food := a.food + df, metal := a.metal + dm } else a)).map
      (fun a => a.food)).sum
      = (l.map (fun a => a.food)).sum + (l.countP (fun a => a.id == aid)) * df := by
  induction l with
  | nil => simp
  | cons a l ih =>
    by_cases h : (a.id == aid) = true
    · simp only [List.map_cons, List.sum_cons, List.countP_cons, h, if_pos, if_true]
      rw [ih]
      push_cast
      ring
    · simp only [List.map_cons, List.sum_cons, List.countP_cons, h, if_false]
      rw [ih]
      push_cast
      ring

theorem sum_metal_map_update (l : List Agent) (aid : String) (df dm : Int) :
    ((l.map (fun a => if a.id == aid
        then { a with food := a.food + df, metal := a.metal + dm } else a)).map
      (fun a => a.metal)).sum
      = (l.map (fun a => a.metal)).sum + (l.countP (fun a => a.id == aid)) * dm := by
  induction l with
  | nil => simp
  | cons a l ih =>
    by_cases h : (a.id == aid) = true
    · simp only [List.map_cons, List.sum_cons, List.countP_cons, h, if_pos, if_true]
      rw [ih]
      push_cast
      ring
    · simp only [List.map_cons, List.sum_cons, List.countP_cons, h, if_false]
      rw [ih]
      push_cast
      ring

theorem countP_id_map_update (l : List Agent) (x : String) (f : Agent → Agent)
    (hf : ∀ a, (f a).id = a.id) (aid : String) :
    (l.map (fun a => if a.id == x then f a else a)).countP (fun a => a.id == aid)
      = l.countP (fun a => a.id == aid) := by
  rw [List.countP_map]
  congr 1
  funext a
  simp only [Function.comp_apply]
  split
  · rw [hf a]
  · rfl

theorem countP_id_eq_one (l : List Agent) (aid : String) (a : Agent)
    (hfind : l.find? (fun x => x.id == aid) = some a)
    (hnodup : (l.map (fun x => x.id)).Nodup) :
    l.countP (fun x => x.id == aid) = 1 := by
  induction l with
  | nil => cases hfind
  | cons b l ih =>
    rw [List.map_cons, List.nodup_cons] at hnodup
    by_cases hb : (b.id == aid) = true
    · have hbid : b.id = aid := by simpa using hb
      have hz : l.countP (fun x => x.id == aid) = 0 := by
        rw [List.countP_eq_zero]
        intro x hx hxx
        apply hnodup.1
        have hxid : x.id = aid := by simpa using hxx
        rw [hbid]
        exact List.mem_map.mpr ⟨x, hx, hxid⟩
      simp [List.countP_cons, hz, hb]
    · rw [List.find?_cons_of_neg _ (by simpa using hb)] at hfind
      simp [List.countP_cons, ih hfind hnodup.2, hb]

theorem acceptTrade_fail_effects (s : Store) (now : Int) (agent : Agent) (tradeId : Nat) :
    (acceptTrade s now agent tradeId).1.success = false →
      (acceptTrade s now agent tradeId).2.agents = s.agents
      ∧ (acceptTrade s now agent tradeId).2.tiles = s.tiles
      ∧ (acceptTrade s now agent tradeId).2.attacks = s.attacks
      ∧ ((acceptTrade s now agent tradeId).2.trades = s.trades
          ∨ (acceptTrade s now agent tradeId).2.trades = expireTradeRow s.trades tradeId) := by
  unfold acceptTrade
  split
  · intro _
    exact ⟨rfl, rfl, rfl, Or.inl rfl⟩
  · split
    · intro _
      exact ⟨rfl, rfl, rfl, Or.inr rfl⟩
    · split
      · intro _
        exact ⟨rfl, rfl, rfl, Or.inl rfl⟩
      · split
        · intro _
          exact ⟨rfl, rfl, rfl, Or.inl rfl⟩
        · split
          · intro _
            exact ⟨rfl, rfl, rfl, Or.inr rfl⟩
          · split
            · intro _
              exact ⟨rfl, rfl, rfl, Or.inl rfl⟩
            · intro h
              simp at h

theorem acceptTrade_missing_eq (s : Store) (now : Int) (agent : Agent) (tradeId : Nat)
    (hfind : findPendingTrade s tradeId = none) :
    acceptTrade s now agent tradeId
      = (⟨false, "Trade proposal not found or no longer pending"⟩, s) := by
  unfold acceptTrade
  rw [hfind]

theorem acceptTrade_expired_eq (s : Store) (now : Int) (agent : Agent) (tradeId : Nat)
    (trade : Trade) (hfind : findPendingTrade s tradeId = some trade)
    (hexp : tradeExpired trade now = true) :
    acceptTrade s now agent tradeId
      = (⟨false, "Trade proposal has expired"⟩,
          updateTradeStatus s tradeId TradeStatus.expired) := by
  unfold acceptTrade
  rw [hfind]
  dsimp only
  rw [if_pos (by exact hexp)]

theorem acceptTrade_not_recipient_eq (s : Store) (now : Int) (agent : Agent) (tradeId : Nat)
    (trade : Trade) (hfind : findPendingTrade s tradeId = some trade)
    (hexp : tradeExpired trade now = false) (hto : trade.to_id ≠ agent.id) :
    acceptTrade s now agent tradeId
      = (⟨false, "This trade proposal is not for you"⟩, s) := by
  unfold acceptTrade
  rw [hfind]
  dsimp only
  rw [if_neg (by rw [show (match trade.expires_at with
        | some e => decide (e < now)
        | none => false) = tradeExpired trade now from rfl, hexp]; simp)]
  rw [if_pos hto]

theorem acceptTrade_proposer_short_eq (s : Store) (now : Int) (agent : Agent) (tradeId : Nat)
    (trade : Trade) (proposer : Agent)
    (hfind : findPendingTrade s tradeId = some trade)
    (hexp : tradeExpired trade now = false) (hto : trade.to_id = agent.id)
    (hprop : getAgent s trade.from_id = some proposer)
    (hshort : proposer.food < trade.offer_food ∨ proposer.metal < trade.offer_metal) :
    acceptTrade s now agent tradeId
      = (⟨false, "Proposer no longer has the offered resources"⟩,
          updateTradeStatus s tradeId TradeStatus.expired) := by
  unfold acceptTrade
  rw [hfind]
  dsimp only
  rw [if_neg (by rw [show (match trade.expires_at with
        | some e => decide (e < now)
        | none => false) = tradeExpired trade now from rfl, hexp]; simp)]
  rw [if_neg (by simp [hto]), hprop]
  dsimp only
  rw [if_pos hshort]

theorem acceptTrade_accepter_short_eq (s : Store) (now : Int) (agent : Agent) (tradeId : Nat)
    (trade : Trade) (proposer : Agent)
    (hfind : findPendingTrade s tradeId = some trade)
    (hexp : tradeExpired trade now = false) (hto : trade.to_id = agent.id)
    (hprop : getAgent s trade.from_id = some proposer)
    (hok : ¬(proposer.food < trade.offer_food ∨ proposer.metal < trade.offer_metal))
    (hshort : agent.food < trade.request_food ∨ agent.metal < trade.request_metal) :
    acceptTrade s now agent tradeId
      = (⟨false, "You do not have enough resources"⟩, s) := by
  unfold acceptTrade
  rw [hfind]
  dsimp only
  rw [if_neg (by rw [show (match trade.expires_at with
        | some e => decide (e < now)
        | none => false) = tradeExpired trade now from rfl, hexp]; simp)]
  rw [if_neg (by simp [hto]), hprop]
  dsimp only
  rw [if_neg hok, if_pos hshort]

theorem acceptTrade_success_eq (s : Store) (now : Int) (agent : Agent) (tradeId : Nat)
    (trade : Trade) (proposer : Agent)
    (hfind : findPendingTrade s tradeId = some trade)
    (hexp : tradeExpired trade now = false) (hto : trade.to_id = agent.id)
    (hprop : getAgent s trade.from_id = some proposer)
    (hok : ¬(proposer.food < trade.offer_food ∨ proposer.metal < trade.offer_metal))
    (haok : ¬(agent.food < trade.request_food ∨ agent.metal < trade.request_metal)) :
    acceptTrade s now agent tradeId
      = (⟨true, "Trade completed"⟩,
          logEvent
            (updateTradeStatus
              (updateAgentResources
                (updateAgentResources s proposer.id
                  (-trade.offer_food + trade.request_food)
                  (-trade.offer_metal + trade.request_metal))
                agent.id
                (trade.offer_food - trade.request_food)
                (trade.offer_metal - trade.request_metal))
              tradeId TradeStatus.accepted)
            none "trade_accepted") := by
  unfold acceptTrade
  rw [hfind]
  dsimp only
  rw [if_neg (by rw [show (match trade.expires_at with
        | some e => decide (e < now)
        | none => false) = tradeExpired trade now from rfl, hexp]; simp)]
  rw [if_neg (by simp [hto]), hprop]
  dsimp only
  rw [if_neg hok, if_neg haok]

theorem getAgent_updateTradeStatus (s : Store) (tradeId : Nat) (st : TradeStatus) (x : String) :
    getAgent (updateTradeStatus s tradeId st) x = getAgent s x := rfl

theorem getAgent_updateAgentResources (s : Store) (aid : String) (df dm : Int) (x : String) :
    getAgent (updateAgentResources s aid df dm) x
      = (getAgent s x).map (fun a => if a.id == aid
          then { a with food := a.food + df, metal := a.metal + dm } else a) := by
  unfold updateAgentResources
  exact getAgent_updateAgents s aid
    (fun a => { a with food := a.food + df, metal := a.metal + dm }) (fun a => rfl) x

/-- C4: AcceptTrade fails with no transfer exactly when the trade is missing
or not pending, past its expiry (auto-marked expired), the caller is not the
designated recipient, or either party lacks the required balance (a
proposer-side shortfall auto-expiring the trade); on success it performs the
atomic four-way balance adjustment and marks the trade accepted, conserving
the total of each resource across the agents, and no failure path ever
touches any balance. -/
theorem c4_accept_trade (s : Store) (now : Int) (agent : Agent) (tradeId : Nat)
    (hagent : getAgent s agent.id = some agent)
    (hnodup : (s.agents.map (fun a => a.id)).Nodup) :
    (findPendingTrade s tradeId = none →
      acceptTrade s now agent tradeId
        = (⟨false, "Trade proposal not found or no longer pending"⟩, s))
    ∧ ((acceptTrade s now agent tradeId).1.success = false →
        (acceptTrade s now agent tradeId).2.agents = s.agents
        ∧ (acceptTrade s now agent tradeId).2.tiles = s.tiles
        ∧ ((acceptTrade s now agent tradeId).2.trades = s.trades
            ∨ (acceptTrade s now agent tradeId).2.trades = expireTradeRow s.trades tradeId))
    ∧ (∀ trade, findPendingTrade s tradeId = some trade →
        (tradeExpired trade now = true →
          (acceptTrade s now agent tradeId).1.success = false
          ∧ (acceptTrade s now agent tradeId).2.trades = expireTradeRow s.trades tradeId
          ∧ (acceptTrade s now agent tradeId).2.agents = s.agents)
        ∧ (tradeExpired trade now = false → trade.to_id ≠ agent.id →
            acceptTrade s now agent tradeId
              = (⟨false, "This trade proposal is not for you"⟩, s))
        ∧ (tradeExpired trade now = false → trade.to_id = agent.id →
            ∀ proposer, getAgent s trade.from_id = some proposer →
            ((proposer.food < trade.offer_food ∨ proposer.metal < trade.offer_metal) →
              (acceptTrade s now agent tradeId).1.success = false
              ∧ (acceptTrade s now agent tradeId).2.trades = expireTradeRow s.trades tradeId
              ∧ (acceptTrade s now agent tradeId).2.agents = s.agents)
            ∧ (¬(proposer.food < trade.offer_food ∨ proposer.metal < trade.offer_metal) →
                (agent.food < trade.request_food ∨ agent.metal < trade.request_metal) →
                acceptTrade s now agent tradeId
                  = (⟨false, "You do not have enough resources"⟩, s))
            ∧ (¬(proposer.food < trade.offer_food ∨ proposer.metal < trade.offer_metal) →
                ¬(agent.food < trade.request_food ∨ agent.metal < trade.request_metal) →
                (acceptTrade s now agent tradeId).1.success = true
                ∧ totalFood (acceptTrade s now agent tradeId).2 = totalFood s
                ∧ totalMetal (acceptTrade s now agent tradeId).2 = totalMetal s
                ∧ (proposer.id ≠ agent.id →
                    (getAgent (acceptTrade s now agent tradeId).2 proposer.id).map
                        (fun a => (a.food, a.metal))
                      = some (proposer.food - trade.offer_food + trade.request_food,
                              proposer.metal - trade.offer_metal + trade.request_metal)
                    ∧ (getAgent (acceptTrade s now agent tradeId).2 agent.id).map
                        (fun a => (a.food, a.metal))
                      = some (agent.food + trade.offer_food - trade.request_food,
                              agent.metal + trade.offer_metal - trade.request_metal))
                ∧ (∀ t ∈ (acceptTrade s now agent tradeId).2.trades, t.id = tradeId →
                    t.status = TradeStatus.accepted)))) := by
  refine ⟨fun h => acceptTrade_missing_eq s now agent tradeId h,
    ?_, ?_⟩
  · intro h
    have hfx := acceptTrade_fail_effects s now agent tradeId h
    exact ⟨hfx.1, hfx.2.1, hfx.2.2.2⟩
  intro trade hfind
  refine ⟨?_, ?_, ?_⟩
  · intro hexp
    rw [acceptTrade_expired_eq s now agent tradeId trade hfind hexp]
    exact ⟨rfl, rfl, rfl⟩
  · intro hexp hto
    exact acceptTrade_not_recipient_eq s now agent tradeId trade hfind hexp hto
  intro hexp hto proposer hprop
  refine ⟨?_, ?_, ?_⟩
  · intro hshort
    rw [acceptTrade_proposer_short_eq s now agent tradeId trade proposer hfind hexp hto
      hprop hshort]
    exact ⟨rfl, rfl, rfl⟩
  · intro hok hshort
    exact acceptTrade_accepter_short_eq s now agent tradeId trade proposer hfind hexp hto
      hprop hok hshort
  intro hok haok
  rw [acceptTrade_success_eq s now agent tradeId trade proposer hfind hexp hto hprop hok haok]
  dsimp only
  have hpid : proposer.id = trade.from_id := by simpa using List.find?_some hprop
  have hc1 : s.agents.countP (fun a => a.id == proposer.id) = 1 := by
    refine countP_id_eq_one s.agents proposer.id proposer ?_ hnodup
    rw [hpid]
    exact hprop
  have hc2 : s.agents.countP (fun a => a.id == agent.id) = 1 :=
    countP_id_eq_one s.agents agent.id agent hagent hnodup
  refine ⟨rfl, ?_, ?_, ?_, ?_⟩
  · show totalFood (updateAgentResources (updateAgentResources s proposer.id
        (-trade.offer_food + trade.request_food) (-trade.offer_metal + trade.request_metal))
        agent.id (trade.offer_food - trade.request_food)
        (trade.offer_metal - trade.request_metal)) = totalFood s
    unfold totalFood updateAgentResources updateAgents
    dsimp only
    have hcnt := countP_id_map_update s.agents proposer.id (fun a => { a with food := a.food + (-trade.offer_food + trade.request_food), metal := a.metal + (-trade.offer_metal + trade.request_metal) }) (fun a => rfl) agent.id
    rw [sum_food_map_update, hcnt, sum_food_map_update, hc1, hc2]
    ring
  · show totalMetal (updateAgentResources (updateAgentResources s proposer.id
        (-trade.offer_food + trade.request_food) (-trade.offer_metal + trade.request_metal))
        agent.id (trade.offer_food - trade.request_food)
        (trade.offer_metal - trade.request_metal)) = totalMetal s
    unfold totalMetal updateAgentResources updateAgents
    dsimp only
    have hcnt := countP_id_map_update s.agents proposer.id (fun a => { a with food := a.food + (-trade.offer_food + trade.request_food), metal := a.metal + (-trade.offer_metal + trade.request_metal) }) (fun a => rfl) agent.id
    rw [sum_metal_map_update, hcnt, sum_metal_map_update, hc1, hc2]
    ring
  · intro hne
    have hnebeq : (proposer.id == agent.id) = false := by simp [hne]
    have hne2 : (agent.id == proposer.id) = false := by
      simp only [beq_eq_false_iff_ne, ne_eq]
      intro hcontra
      exact hne hcontra.symm
    constructor
    · rw [getAgent_logEvent, getAgent_updateTradeStatus,
        getAgent_updateAgentResources, getAgent_updateAgentResources,
        show getAgent s proposer.id = some proposer from by rw [hpid]; exact hprop]
      simp [hne]
      constructor <;> ring
    · rw [getAgent_logEvent, getAgent_updateTradeStatus,
        getAgent_updateAgentResources, getAgent_updateAgentResources, hagent]
      have hne3 : ¬ agent.id = proposer.id := fun hcontra => hne hcontra.symm
      simp [hne3]
      constructor <;> ring
  · intro t ht hid
    have : (logEvent (updateTradeStatus (updateAgentResources (updateAgentResources s
        proposer.id (-trade.offer_food + trade.request_food)
        (-trade.offer_metal + trade.request_metal)) agent.id
        (trade.offer_food - trade.request_food) (trade.offer_metal - trade.request_metal))
        tradeId TradeStatus.accepted) none "trade_accepted").trades
        = s.trades.map (fun t => if t.id == tradeId
            then { t with status := TradeStatus.accepted } else t) := rfl
    rw [this] at ht
    obtain ⟨b, _, rfl⟩ := List.mem_map.mp ht
    by_cases hb : b.id = tradeId
    · simp [hb]
    · exfalso
      apply hb
      revert hid
      simp [hb]

/-- Witness for C4 on the concrete trade world: Erin accepts Dan's pending
trade (30 food for 20 metal) at time 1; the exchange succeeds, totals are
conserved, and the balances become Dan 70/25 and Erin 80/40. -/
theorem c4_accept_trade_witness :
    (acceptTrade tradeStore 1 wErin 1).1.success = true
    ∧ totalFood (acceptTrade tradeStore 1 wErin 1).2 = totalFood tradeStore
    ∧ totalMetal (acceptTrade tradeStore 1 wErin 1).2 = totalMetal tradeStore
    ∧ (getAgent (acceptTrade tradeStore 1 wErin 1).2 "dan").map (fun a => (a.food, a.metal))
        = some (70, 25)
    ∧ (getAgent (acceptTrade tradeStore 1 wErin 1).2 "erin").map (fun a => (a.food, a.metal))
        = some (80, 40) := by
  have h := c4_accept_trade tradeStore 1 wErin 1 (by decide) (by decide)
  have hleaf := (h.2.2 ⟨1, "dan", "erin", 30, 0, 0, 20, TradeStatus.pending, some 24⟩
    (by decide)).2.2 (by decide) rfl wDan (by decide)
  have hs := hleaf.2.2 (by decide) (by decide)
  have hbal := hs.2.2.2.1 (by decide)
  exact ⟨hs.1, hs.2.1, hs.2.2.1, by simpa using hbal.1, by simpa using hbal.2⟩

-- ===========================================================================
-- STARVATION (C3)
-- ===========================================================================

theorem clearTile_coords (u : Tile) : (clearTile u).q = u.q ∧ (clearTile u).r = u.r :=
  ⟨rfl, rfl⟩

theorem clearTile_clearTile (u : Tile) : clearTile (clearTile u) = clearTile u := rfl

theorem tiles_loseTile (agentId : String) (s : Store) (t : Tile) :
    (loseTile agentId s t).tiles
      = s.tiles.map (fun u => if u.q == t.q && u.r == t.r then clearTile u else u) := by
  unfold loseTile
  rw [tiles_logEvent, tiles_clearCapitalIfLost]
  rfl

theorem foldl_loseTile_tiles (agentId : String) (L : List Tile) (st : Store) :
    (L.foldl (loseTile agentId) st).tiles
      = st.tiles.map (fun u => if coordHit L u then clearTile u else u) := by
  induction L generalizing st with
  | nil =>
    show st.tiles = _
    have hid : ∀ u ∈ st.tiles,
        (if coordHit ([] : List Tile) u then clearTile u else u) = id u := by
      intro u _
      simp [coordHit]
    rw [List.map_congr_left hid, List.map_id]
  | cons t L ih =>
    show (L.foldl (loseTile agentId) (loseTile agentId st t)).tiles = _
    rw [ih (loseTile agentId st t), tiles_loseTile, List.map_map]
    refine List.map_congr_left fun u _ => ?_
    show (if coordHit L (if u.q == t.q && u.r == t.r then clearTile u else u) then
        clearTile (if u.q == t.q && u.r == t.r then clearTile u else u)
      else (if u.q == t.q && u.r == t.r then clearTile u else u))
      = if coordHit (t :: L) u then clearTile u else u
    by_cases h1 : (u.q == t.q && u.r == t.r) = true
    · rw [if_pos h1]
      have hhit : coordHit (t :: L) u = true := by
        unfold coordHit
        rw [List.any_cons, h1, Bool.true_or]
      rw [hhit]
      by_cases h2 : coordHit L (clearTile u) = true
      · rw [if_pos h2, clearTile_clearTile]
        simp
      · rw [if_neg (by simp [h2])]
        simp
    · have h1f : (u.q == t.q && u.r == t.r) = false := by simpa using h1
      have hv : (if (u.q == t.q && u.r == t.r) = true then clearTile u else u) = u :=
        if_neg (by simp [h1f])
      have hsame : coordHit (t :: L) u = coordHit L u := by
        unfold coordHit
        rw [List.any_cons, h1f, Bool.false_or]
      rw [hv, hsame]

theorem getTile_of_mem_nodup (s : Store) (t : Tile)
    (hnodupc : (tileCoords s).Nodup) (hmem : t ∈ s.tiles) :
    getTile s t.q t.r = some t := by
  unfold getTile
  cases hfind : s.tiles.find? (fun u => u.q == t.q && u.r == t.r) with
  | none =>
    exfalso
    rw [List.find?_eq_none] at hfind
    exact hfind t hmem (by simp)
  | some u =>
    have humem := List.mem_of_find?_eq_some hfind
    have hpred := List.find?_some hfind
    simp at hpred
    have : u = t := List.inj_on_of_nodup_map hnodupc humem hmem (by
      show (u.q, u.r) = (t.q, t.r)
      rw [hpred.1, hpred.2])
    rw [this]

theorem getTile_foldl_loseTile (agentId : String) (L : List Tile) (st : Store) (x y : Int) :
    getTile (L.foldl (loseTile agentId) st) x y
      = (getTile st x y).map (fun u => if coordHit L u then clearTile u else u) := by
  show ((L.foldl (loseTile agentId) st).tiles.find? _) = _
  rw [foldl_loseTile_tiles]
  exact find?_tiles_map st.tiles _
    (fun u => by
      show ((if coordHit L u then clearTile u else u).q = u.q
        ∧ (if coordHit L u then clearTile u else u).r = u.r)
      split
      exacts [⟨rfl, rfl⟩, ⟨rfl, rfl⟩]) x y

theorem getAgent_clearCapitalIfLost_self (s : Store) (agentId : String) (q r : Int) (b : Agent)
    (hb : getAgent s agentId = some b) :
    getAgent (clearCapitalIfLost s agentId q r) agentId
      = some (if b.capital_q == some q && b.capital_r == some r
          then { b with capital_q := none, capital_r := none } else b) := by
  unfold clearCapitalIfLost
  rw [hb]
  dsimp only
  by_cases h : (b.capital_q == some q && b.capital_r == some r) = true
  · rw [if_pos h, if_pos h]
    rw [getAgent_updateAgents s agentId
      (fun c => { c with capital_q := none, capital_r := none }) (fun c => rfl) agentId, hb]
    have hid : b.id = agentId := by simpa using List.find?_some hb
    simp [hid]
  · rw [if_neg h, if_neg h]
    exact hb

theorem getAgent_loseTile_self (agentId : String) (st : Store) (t : Tile) (b : Agent)
    (hb : getAgent st agentId = some b) :
    getAgent (loseTile agentId st t) agentId
      = some (if b.capital_q == some t.q && b.capital_r == some t.r
          then { b with capital_q := none, capital_r := none } else b) := by
  unfold loseTile
  rw [getAgent_logEvent]
  exact getAgent_clearCapitalIfLost_self _ agentId t.q t.r b hb

theorem food_foldl_loseTile (agentId : String) (L : List Tile) (st : Store) (b : Agent)
    (hb : getAgent st agentId = some b) :
    ∃ b2, getAgent (L.foldl (loseTile agentId) st) agentId = some b2 ∧ b2.food = b.food := by
  induction L generalizing st b with
  | nil => exact ⟨b, hb, rfl⟩
  | cons t L ih =>
    have hstep := getAgent_loseTile_self agentId st t b hb
    by_cases h : (b.capital_q == some t.q && b.capital_r == some t.r) = true
    · rw [if_pos h] at hstep
      obtain ⟨b2, hb2, hf⟩ := ih (loseTile agentId st t) _ hstep
      exact ⟨b2, hb2, hf⟩
    · rw [if_neg h] at hstep
      exact ih (loseTile agentId st t) b hstep

theorem capital_none_foldl_loseTile (agentId : String) (L : List Tile) (st : Store) (b : Agent)
    (hb : getAgent st agentId = some b)
    (hq : b.capital_q = none) (hr : b.capital_r = none) :
    (getAgent (L.foldl (loseTile agentId) st) agentId).map
        (fun x => (x.capital_q, x.capital_r)) = some (none, none) := by
  induction L generalizing st b with
  | nil =>
    simp only [List.foldl_nil]
    rw [hb]
    simp [hq, hr]
  | cons t L ih =>
    have hstep := getAgent_loseTile_self agentId st t b hb
    rw [if_neg (by simp [hq])] at hstep
    exact ih (loseTile agentId st t) b hstep hq hr

theorem capital_cleared_foldl_loseTile (agentId : String) (L : List Tile) (st : Store)
    (b : Agent) (hb : getAgent st agentId = some b)
    (t : Tile) (hmem : t ∈ L)
    (hq : b.capital_q = some t.q) (hr : b.capital_r = some t.r) :
    (getAgent (L.foldl (loseTile agentId) st) agentId).map
        (fun x => (x.capital_q, x.capital_r)) = some (none, none) := by
  induction L generalizing st b with
  | nil => cases hmem
  | cons u L ih =>
    have hstep := getAgent_loseTile_self agentId st u b hb
    by_cases h : (b.capital_q == some u.q && b.capital_r == some u.r) = true
    · rw [if_pos h] at hstep
      exact capital_none_foldl_loseTile agentId L (loseTile agentId st u) _ hstep rfl rfl
    · rw [if_neg h] at hstep
      have htu : t ∈ L := by
        rcases List.mem_cons.mp hmem with heq | hmem2
        · exfalso
          apply h
          rw [← heq, hq, hr]
          simp
        · exact hmem2
      exact ih (loseTile agentId st u) b hstep htu hq hr

theorem upkeepAgentStep_starve_eq (s : Store) (agentId : String) (a : Agent)
    (hagent : getAgent s agentId = some a)
    (hfood0 : 0 ≤ a.food)
    (hs : a.food < (ownedTiles s agentId).length * UPKEEP_FOOD_PER_TILE) :
    upkeepAgentStep s agentId
      = (starveLost s agentId a.food).foldl (loseTile agentId)
          (updateAgents s agentId (fun x => { x with food := 0 })) := by
  have hpos : ((s.tiles.filter (fun t => t.owner_id == some agentId)).length : Int)
      * UPKEEP_FOOD_PER_TILE > 0 := by
    have : ((ownedTiles s agentId).length : Int) * UPKEEP_FOOD_PER_TILE > 0 := by
      unfold UPKEEP_FOOD_PER_TILE at hs ⊢
      omega
    exact this
  have hlt : ¬ (a.food ≥ ((s.tiles.filter (fun t => t.owner_id == some agentId)).length : Int)
      * UPKEEP_FOOD_PER_TILE) := by
    have : ¬ (a.food ≥ ((ownedTiles s agentId).length : Int) * UPKEEP_FOOD_PER_TILE) := by
      omega
    exact this
  simp only [upkeepAgentStep]
  rw [if_pos hpos, hagent]
  dsimp only
  rw [if_neg hlt]
  rfl

theorem mem_ownedTiles (s : Store) (agentId : String) (u : Tile) :
    u ∈ ownedTiles s agentId ↔ u ∈ s.tiles ∧ u.owner_id = some agentId := by
  unfold ownedTiles
  rw [List.mem_filter]
  simp

theorem mem_sortTilesByValue (l : List Tile) (u : Tile) :
    u ∈ sortTilesByValue l ↔ u ∈ l :=
  (List.perm_insertionSort tileValueLE l).mem_iff

theorem starveLost_subset (s : Store) (agentId : String) (food : Int) :
    ∀ t ∈ starveLost s agentId food, t ∈ ownedTiles s agentId := by
  intro t ht
  have h1 : t ∈ sortTilesByValue (ownedTiles s agentId) := by
    unfold starveLost at ht
    exact List.take_subset _ _ ht
  exact (mem_sortTilesByValue _ t).mp h1

theorem coordHit_of_mem (L : List Tile) (t : Tile) (ht : t ∈ L) : coordHit L t = true := by
  unfold coordHit
  rw [List.any_eq_true]
  exact ⟨t, ht, by simp⟩

/-- C3: when post-production food falls short of upkeep (owned-count × 3),
the tick's upkeep step zeroes the agent's food and removes exactly
min(ceil(shortfall / 3), owned-count) owned tiles, taken from the stable
terrain-value sort (barren, mixed, mine, farmland) — so the lost tiles are
value-sorted and each is no more valuable than any kept tile; each lost
tile is cleared (owner null, fortification 0), kept tiles are untouched,
the agent's capital is cleared when a lost tile was the capital, and the
removal count never exceeds the number of owned tiles. -/
theorem c3_starvation (s : Store) (agentId : String) (a : Agent)
    (hagent : getAgent s agentId = some a)
    (hnodupc : (tileCoords s).Nodup)
    (hfood0 : 0 ≤ a.food)
    (hs : a.food < (ownedTiles s agentId).length * UPKEEP_FOOD_PER_TILE) :
    UPKEEP_FOOD_PER_TILE = 3
    ∧ (getAgent (upkeepAgentStep s agentId) agentId).map (fun x => x.food) = some 0
    ∧ (starveLost s agentId a.food).length
        = min ((((ownedTiles s agentId).length * UPKEEP_FOOD_PER_TILE - a.food).toNat + 2) / 3)
            (ownedTiles s agentId).length
    ∧ (starveLost s agentId a.food).length ≤ (ownedTiles s agentId).length
    ∧ List.Pairwise tileValueLE (starveLost s agentId a.food)
    ∧ (∀ t ∈ starveLost s agentId a.food,
        getTile (upkeepAgentStep s agentId) t.q t.r = some (clearTile t))
    ∧ (∀ u ∈ ownedTiles s agentId, u ∉ starveLost s agentId a.food →
        getTile (upkeepAgentStep s agentId) u.q u.r = some u)
    ∧ (∀ t ∈ starveLost s agentId a.food, ∀ u ∈ ownedTiles s agentId,
        u ∉ starveLost s agentId a.food → tileValue t ≤ tileValue u)
    ∧ (∀ t ∈ starveLost s agentId a.food,
        a.capital_q = some t.q → a.capital_r = some t.r →
        (getAgent (upkeepAgentStep s agentId) agentId).map
          (fun x => (x.capital_q, x.capital_r)) = some (none, none)) := by
  have heq := upkeepAgentStep_starve_eq s agentId a hagent hfood0 hs
  have hid : a.id = agentId := by simpa using List.find?_some hagent
  have hs1agent : getAgent (updateAgents s agentId (fun x => { x with food := 0 })) agentId
      = some { a with food := 0 } := by
    rw [getAgent_updateAgents s agentId (fun x => { x with food := 0 }) (fun x => rfl) agentId,
      hagent]
    simp [hid]
  have hlensort : (sortTilesByValue (ownedTiles s agentId)).length
      = (ownedTiles s agentId).length :=
    (List.perm_insertionSort tileValueLE (ownedTiles s agentId)).length_eq
  have hlen : (starveLost s agentId a.food).length
      = min ((((ownedTiles s agentId).length * UPKEEP_FOOD_PER_TILE - a.food).toNat + 2) / 3)
          (ownedTiles s agentId).length := by
    unfold starveLost
    rw [List.length_take, hlensort]
    omega
  have hsorted : List.Pairwise tileValueLE (sortTilesByValue (ownedTiles s agentId)) :=
    List.sorted_insertionSort tileValueLE (ownedTiles s agentId)
  have hmem_tiles : ∀ u ∈ ownedTiles s agentId, u ∈ s.tiles :=
    fun u hu => ((mem_ownedTiles s agentId u).mp hu).1
  have hnohit : ∀ u ∈ ownedTiles s agentId, u ∉ starveLost s agentId a.food →
      coordHit (starveLost s agentId a.food) u = false := by
    intro u hu hnot
    by_contra hc
    have hc2 : coordHit (starveLost s agentId a.food) u = true := by
      revert hc
      cases coordHit (starveLost s agentId a.food) u <;> simp
    unfold coordHit at hc2
    rw [List.any_eq_true] at hc2
    obtain ⟨t, htL, hpred⟩ := hc2
    have hteq : u = t := by
      refine List.inj_on_of_nodup_map hnodupc (hmem_tiles u hu)
        (hmem_tiles t (starveLost_subset s agentId a.food t htL)) ?_
      have := hpred
      simp at this
      show (u.q, u.r) = (t.q, t.r)
      rw [this.1, this.2]
    exact hnot (hteq ▸ htL)
  refine ⟨rfl, ?_, hlen, by omega, ?_, ?_, ?_, ?_, ?_⟩
  · rw [heq]
    obtain ⟨b2, hb2, hf⟩ := food_foldl_loseTile agentId (starveLost s agentId a.food) _
      ({ a with food := 0 }) hs1agent
    rw [hb2]
    simp [hf]
  · exact hsorted.sublist (List.take_sublist _ _)
  · intro t ht
    rw [heq, getTile_foldl_loseTile]
    have hts : getTile (updateAgents s agentId (fun x => { x with food := 0 })) t.q t.r
        = getTile s t.q t.r := rfl
    rw [hts, getTile_of_mem_nodup s t hnodupc
      (hmem_tiles t (starveLost_subset s agentId a.food t ht))]
    simp [coordHit_of_mem _ t ht]
  · intro u hu hnot
    rw [heq, getTile_foldl_loseTile]
    have hts : getTile (updateAgents s agentId (fun x => { x with food := 0 })) u.q u.r
        = getTile s u.q u.r := rfl
    rw [hts, getTile_of_mem_nodup s u hnodupc (hmem_tiles u hu)]
    simp [hnohit u hu hnot]
  · intro t ht u hu hnot
    have hsplit := hsorted
    rw [← List.take_append_drop
      (min ((((ownedTiles s agentId).length * UPKEEP_FOOD_PER_TILE - a.food).toNat + 2) / 3)
        (sortTilesByValue (ownedTiles s agentId)).length)
      (sortTilesByValue (ownedTiles s agentId)), List.pairwise_append] at hsplit
    have humem : u ∈ List.drop
        (min ((((ownedTiles s agentId).length * UPKEEP_FOOD_PER_TILE - a.food).toNat + 2) / 3)
          (sortTilesByValue (ownedTiles s agentId)).length)
        (sortTilesByValue (ownedTiles s agentId)) := by
      have husort : u ∈ sortTilesByValue (ownedTiles s agentId) :=
        (mem_sortTilesByValue _ u).mpr hu
      rw [← List.take_append_drop
        (min ((((ownedTiles s agentId).length * UPKEEP_FOOD_PER_TILE - a.food).toNat + 2) / 3)
          (sortTilesByValue (ownedTiles s agentId)).length)
        (sortTilesByValue (ownedTiles s agentId)), List.mem_append] at husort
      rcases husort with h | h
      · exact absurd h hnot
      · exact h
    exact hsplit.2.2 t ht u humem
  · intro t ht hq hr
    rw [heq]
    exact capital_cleared_foldl_loseTile agentId (starveLost s agentId a.food) _
      ({ a with food := 0 }) hs1agent t ht hq hr

/-- Witness for C3 on the concrete starvation world: Carl owns five tiles
(upkeep 15) and has 10 food, so his food is zeroed and exactly
ceil(5/3) = 2 tiles are removed — the two barren ones — while his farmland
capital survives. -/
theorem c3_starvation_witness :
    (getAgent starveStore "carl" = some ⟨"carl", "Carl", 10, 0, some 1, some 5, none⟩)
    ∧ (getAgent (upkeepAgentStep starveStore "carl") "carl").map (fun x => x.food) = some 0
    ∧ (starveLost starveStore "carl" 10).length = 2
    ∧ getTile (upkeepAgentStep starveStore "carl") 1 5
        = some ⟨1, 5, Terrain.barren, none, 0⟩
    ∧ getTile (upkeepAgentStep starveStore "carl") 0 5
        = some ⟨0, 5, Terrain.farmland, some "carl", 0⟩ := by
  have h := c3_starvation starveStore "carl" ⟨"carl", "Carl", 10, 0, some 1, some 5, none⟩
    (by decide) (by decide) (by decide) (by decide)
  refine ⟨by decide, h.2.1, ?_, ?_, ?_⟩
  · rw [h.2.2.1]
    decide
  · have := h.2.2.2.2.2.1 ⟨1, 5, Terrain.barren, some "carl", 0⟩ (by decide)
    simpa [clearTile] using this
  · exact h.2.2.2.2.2.2.1 ⟨0, 5, Terrain.farmland, some "carl", 0⟩ (by decide) (by decide)

-- ===========================================================================
-- ACTION ROUTE FAILURE BEHAVIOUR (C6)
-- ===========================================================================

theorem declareAttack_fail_store (s : Store) (now : Int) (agent : Agent)
    (tq tr c : Int) :
    (declareAttack s now agent tq tr c).1.success = false →
      (declareAttack s now agent tq tr c).2 = s := by
  unfold declareAttack
  repeat' split
  all_goals intro h
  all_goals first | rfl | simp at h

theorem fortify_fail_store (s : Store) (agent : Agent) (tq tr m : Int) :
    (fortify s agent tq tr m).1.success = false → (fortify s agent tq tr m).2 = s := by
  unfold fortify
  repeat' split
  all_goals intro h
  all_goals first | rfl | simp at h

theorem giftTile_fail_store (s : Store) (agent : Agent) (tq tr : Int) (toId : String) :
    (giftTile s agent tq tr toId).1.success = false → (giftTile s agent tq tr toId).2 = s := by
  unfold giftTile
  repeat' split
  all_goals intro h
  all_goals first | rfl | simp at h

theorem giftResources_fail_store (s : Store) (agent : Agent) (toId : String) (f m : Int) :
    (giftResources s agent toId f m).1.success = false →
      (giftResources s agent toId f m).2 = s := by
  unfold giftResources
  repeat' split
  all_goals intro h
  all_goals first | rfl | simp at h

theorem setCapital_fail_store (s : Store) (agent : Agent) (tq tr : Int) :
    (setCapital s agent tq tr).1.success = false → (setCapital s agent tq tr).2 = s := by
  unfold setCapital
  repeat' split
  all_goals intro h
  all_goals first | rfl | simp at h

theorem sendMessage_fail_store (s : Store) (agent : Agent) (toId content : String) :
    (sendMessage s agent toId content).1.success = false →
      (sendMessage s agent toId content).2 = s := by
  unfold sendMessage
  repeat' split
  all_goals intro h
  all_goals first | rfl | simp at h

theorem proposeTrade_fail_store (s : Store) (now : Int) (agent : Agent) (toId : String)
    (a b c d : Int) :
    (proposeTrade s now agent toId a b c d).1.success = false →
      (proposeTrade s now agent toId a b c d).2 = s := by
  unfold proposeTrade
  repeat' split
  all_goals intro h
  all_goals first | rfl | simp at h

theorem rejectTrade_fail_store (s : Store) (agent : Agent) (tradeId : Nat) :
    (rejectTrade s agent tradeId).1.success = false →
      (rejectTrade s agent tradeId).2 = s := by
  unfold rejectTrade
  repeat' split
  all_goals intro h
  all_goals first | rfl | simp at h

theorem acceptTrade_fail_effects2 (s : Store) (now : Int) (agent : Agent) (tradeId : Nat) :
    (acceptTrade s now agent tradeId).1.success = false →
      (acceptTrade s now agent tradeId).2.messages = s.messages
      ∧ (acceptTrade s now agent tradeId).2.events = s.events
      ∧ (acceptTrade s now agent tradeId).2.gameState = s.gameState := by
  unfold acceptTrade
  repeat' split
  all_goals intro h
  all_goals first | exact ⟨rfl, rfl, rfl⟩ | simp at h

theorem agentCore_map_lastSeen (s : Store) (agentId : String) (now : Int) :
    (updateAgents s agentId (fun a => { a with last_seen_at := some now })).agents.map agentCore
      = s.agents.map agentCore := by
  show (s.agents.map _).map agentCore = _
  rw [List.map_map]
  exact List.map_congr_left fun a _ => by
    simp only [Function.comp_apply]
    split <;> rfl

theorem unchanged_s0 (s : Store) (agentId : String) (now : Int) :
    UnchangedUpToBookkeeping s
      (updateAgents s agentId (fun a => { a with last_seen_at := some now })) :=
  ⟨rfl, rfl, rfl, rfl, rfl, agentCore_map_lastSeen s agentId now, Or.inl rfl⟩

/-- Counterexample to C6 as stated: a failing action does mutate an agent
record.  Submitting an expand aimed at a nonexistent tile returns a failure,
yet the store afterwards differs from the store before — the acting agent's
last_seen_at was refreshed before validation. -/
theorem c6_failure_mutates_last_seen_cex :
    (submitAction expandStore 99 "alice" badExpandRaw).1.success = false
    ∧ (submitAction expandStore 99 "alice" badExpandRaw).2 ≠ expandStore
    ∧ (getAgent (submitAction expandStore 99 "alice" badExpandRaw).2 "alice").map
        (fun a => a.last_seen_at) = some (some 99) := by
  refine ⟨by decide, by decide, by decide⟩

theorem acceptTrade_fail_store_or (s : Store) (now : Int) (agent : Agent) (tradeId : Nat) :
    (acceptTrade s now agent tradeId).1.success = false →
      (acceptTrade s now agent tradeId).2 = s
      ∨ (acceptTrade s now agent tradeId).2 = updateTradeStatus s tradeId TradeStatus.expired := by
  unfold acceptTrade
  repeat' split
  all_goals intro h
  all_goals first | (exact Or.inl rfl) | (exact Or.inr rfl) | simp at h

theorem dispatchAction_fail (s0 : Store) (now : Int) (agent : Agent) (raw : RawAction) :
    (dispatchAction s0 now agent raw).1.success = false →
      (dispatchAction s0 now agent raw).2 = s0
      ∨ ∃ tradeId, (dispatchAction s0 now agent raw).2
          = updateTradeStatus s0 tradeId TradeStatus.expired := by
  unfold dispatchAction
  repeat' split
  all_goals intro hfail
  all_goals first
    | (exact Or.inl rfl)
    | (exact Or.inl (expand_fail_store _ _ _ _ hfail))
    | (exact Or.inl (declareAttack_fail_store _ _ _ _ _ _ hfail))
    | (exact Or.inl (fortify_fail_store _ _ _ _ _ hfail))
    | (exact Or.inl (giftTile_fail_store _ _ _ _ _ hfail))
    | (exact Or.inl (giftResources_fail_store _ _ _ _ _ hfail))
    | (exact Or.inl (setCapital_fail_store _ _ _ _ hfail))
    | (exact Or.inl (sendMessage_fail_store _ _ _ _ hfail))
    | (exact Or.inl (proposeTrade_fail_store _ _ _ _ _ _ _ _ hfail))
    | (exact Or.inl (rejectTrade_fail_store _ _ _ hfail))
    | (rcases acceptTrade_fail_store_or _ _ _ _ hfail with h | h
       · exact Or.inl h
       · exact Or.inr ⟨_, h⟩)

/-- C6 (amended): every submitted action that fails validation or a
precondition returns a structured failure result and leaves the store's
game state unchanged up to two pieces of bookkeeping that the route
performs regardless of the outcome: the acting agent's last-seen timestamp
is refreshed before validation, and a stale trade referenced by
trade_accept may be auto-marked expired.  Tiles, attacks, messages,
events, the game-state row and every agent's game-relevant fields
(resources, capital, name) are never mutated by a failing action. -/
theorem c6_failure_no_partial_mutation (s : Store) (now : Int) (agentId : String)
    (raw : RawAction) :
    (submitAction s now agentId raw).1.success = false →
      UnchangedUpToBookkeeping s (submitAction s now agentId raw).2 := by
  unfold submitAction
  split
  · intro _
    exact ⟨rfl, rfl, rfl, rfl, rfl, rfl, Or.inl rfl⟩
  · intro hfail
    rcases dispatchAction_fail _ now _ raw hfail with h | ⟨tradeId, h⟩
    · rw [h]
      exact unchanged_s0 s agentId now
    · rw [h]
      exact ⟨rfl, rfl, rfl, rfl, rfl, agentCore_map_lastSeen s agentId now,
        Or.inr ⟨tradeId, rfl⟩⟩

/-- Witness for C6 (amended) at a concrete failing action: the rejected
expand leaves the world unchanged up to the last-seen refresh. -/
theorem c6_failure_no_partial_mutation_witness :
    (submitAction expandStore 99 "alice" badExpandRaw).1.success = false
    ∧ UnchangedUpToBookkeeping expandStore
        (submitAction expandStore 99 "alice" badExpandRaw).2 := by
  exact ⟨by decide,
    c6_failure_no_partial_mutation expandStore 99 "alice" badExpandRaw (by decide)⟩

-- ===========================================================================
-- C9: THE UNOWNED-IMPLIES-UNFORTIFIED INVARIANT HOLDS IN REACHABLE STATES
-- ===========================================================================

theorem storeInv_of_tiles_eq (s s' : Store) (h : s'.tiles = s.tiles) (hs : StoreInv s) :
    StoreInv s' := by
  constructor
  · show (s'.tiles.map _).Nodup
    rw [h]
    exact hs.1
  · intro t ht
    rw [h] at ht
    exact hs.2 t ht

theorem storeInv_of_tiles_map (s s' : Store) (g : Tile → Tile)
    (h : s'.tiles = s.tiles.map g)
    (hcoord : ∀ t, (g t).q = t.q ∧ (g t).r = t.r)
    (hok : StoreInv s → ∀ t ∈ s.tiles, (g t).owner_id = none → (g t).fortification = 0)
    (hs : StoreInv s) : StoreInv s' := by
  constructor
  · show (s'.tiles.map _).Nodup
    rw [h, List.map_map]
    have hfun : ((fun t : Tile => (t.q, t.r)) ∘ g) = (fun t : Tile => (t.q, t.r)) :=
      funext fun t => by
        show ((g t).q, (g t).r) = (t.q, t.r)
        rw [(hcoord t).1, (hcoord t).2]
    rw [hfun]
    exact hs.1
  · intro t ht
    rw [h, List.mem_map] at ht
    obtain ⟨u, hu, rfl⟩ := ht
    exact hok hs u hu

theorem storeInv_foldl {α : Type} (f : Store → α → Store) (l : List α) (s : Store)
    (hf : ∀ st x, StoreInv st → StoreInv (f st x)) (hs : StoreInv s) :
    StoreInv (l.foldl f s) := by
  induction l generalizing s with
  | nil => exact hs
  | cons x l ih => exact ih (f s x) (hf s x hs)

theorem storeInv_claim_map (s : Store) (aid : String) (q r : Int) (s' : Store)
    (h : s'.tiles = s.tiles.map
      (fun t => if t.q == q && t.r == r then { t with owner_id := some aid } else t))
    (hs : StoreInv s) : StoreInv s' := by
  refine storeInv_of_tiles_map s s' _ h ?_ ?_ hs
  · intro t
    dsimp only
    split
    · exact ⟨rfl, rfl⟩
    · exact ⟨rfl, rfl⟩
  · intro hsi t ht
    dsimp only
    split
    · intro hnone
      exact Option.noConfusion hnone
    · exact hsi.2 t ht

theorem storeInv_capture_map (s : Store) (aid : String) (q r : Int) (s' : Store)
    (h : s'.tiles = s.tiles.map
      (fun t => if t.q == q && t.r == r then
          { t with owner_id := some aid, fortification := 0 } else t))
    (hs : StoreInv s) : StoreInv s' := by
  refine storeInv_of_tiles_map s s' _ h ?_ ?_ hs
  · intro t
    dsimp only
    split
    · exact ⟨rfl, rfl⟩
    · exact ⟨rfl, rfl⟩
  · intro hsi t ht
    dsimp only
    split
    · intro _
      rfl
    · exact hsi.2 t ht

theorem storeInv_loseTile (agentId : String) (st : Store) (t : Tile) (hs : StoreInv st) :
    StoreInv (loseTile agentId st t) := by
  refine storeInv_of_tiles_map st _ _ (tiles_loseTile agentId st t) ?_ ?_ hs
  · intro u
    dsimp only
    split
    · exact ⟨rfl, rfl⟩
    · exact ⟨rfl, rfl⟩
  · intro hsi u hu
    dsimp only
    split
    · intro _
      rfl
    · exact hsi.2 u hu

theorem storeInv_expand (s : Store) (agent : Agent) (tq tr : Int) (hs : StoreInv s) :
    StoreInv (expand s agent tq tr).2 := by
  unfold expand
  repeat' split
  any_goals exact hs
  dsimp only
  exact storeInv_claim_map s agent.id tq tr _ rfl hs

theorem storeInv_fortify (s : Store) (agent : Agent) (tq tr m : Int) (hs : StoreInv s) :
    StoreInv (fortify s agent tq tr m).2 := by
  unfold fortify
  repeat' split
  any_goals exact hs
  rename_i targetTile heq hown
  dsimp only
  refine storeInv_of_tiles_map s _
    (fun t => if t.q == tq && t.r == tr then
        { t with fortification := t.fortification + m } else t)
    rfl ?_ ?_ hs
  · intro t
    dsimp only
    split
    · exact ⟨rfl, rfl⟩
    · exact ⟨rfl, rfl⟩
  · intro hsi t ht
    dsimp only
    split
    · rename_i hhit
      simp only [Bool.and_eq_true, beq_iff_eq] at hhit
      intro hnone
      have hget : getTile s tq tr = some t := by
        rw [← hhit.1, ← hhit.2]
        exact getTile_of_mem_nodup s t hsi.1 ht
      rw [heq] at hget
      have hT : targetTile = t := Option.some.inj hget
      have hno : t.owner_id = none := hnone
      have hOwn : targetTile.owner_id = some agent.id := not_not.mp hown
      rw [hT, hno] at hOwn
      exact Option.noConfusion hOwn
    · exact hsi.2 t ht

theorem storeInv_giftTile (s : Store) (agent : Agent) (tq tr : Int) (toId : String)
    (hs : StoreInv s) : StoreInv (giftTile s agent tq tr toId).2 := by
  unfold giftTile
  repeat' split
  any_goals exact hs
  rename_i recipient heqr hne
  dsimp only
  refine storeInv_claim_map s recipient.id tq tr _ ?_ hs
  rw [tiles_logEvent, tiles_clearCapitalIfLost]
  all_goals rfl

theorem tiles_declareAttack (s : Store) (now : Int) (agent : Agent) (tq tr c : Int) :
    (declareAttack s now agent tq tr c).2.tiles = s.tiles := by
  unfold declareAttack
  repeat' split
  all_goals rfl

theorem tiles_setCapital (s : Store) (agent : Agent) (tq tr : Int) :
    (setCapital s agent tq tr).2.tiles = s.tiles := by
  unfold setCapital
  repeat' split
  all_goals rfl

theorem tiles_giftResources (s : Store) (agent : Agent) (toId : String) (fd mt : Int) :
    (giftResources s agent toId fd mt).2.tiles = s.tiles := by
  unfold giftResources
  repeat' split
  all_goals rfl

theorem tiles_sendMessage (s : Store) (agent : Agent) (toId content : String) :
    (sendMessage s agent toId content).2.tiles = s.tiles := by
  unfold sendMessage
  repeat' split
  all_goals rfl

theorem tiles_proposeTrade (s : Store) (now : Int) (agent : Agent) (toId : String)
    (a b c d : Int) :
    (proposeTrade s now agent toId a b c d).2.tiles = s.tiles := by
  unfold proposeTrade
  repeat' split
  all_goals rfl

theorem tiles_acceptTrade (s : Store) (now : Int) (agent : Agent) (tradeId : Nat) :
    (acceptTrade s now agent tradeId).2.tiles = s.tiles := by
  unfold acceptTrade
  repeat' split
  all_goals rfl

theorem tiles_rejectTrade (s : Store) (agent : Agent) (tradeId : Nat) :
    (rejectTrade s agent tradeId).2.tiles = s.tiles := by
  unfold rejectTrade
  repeat' split
  all_goals rfl

theorem storeInv_dispatch (s0 : Store) (now : Int) (agent : Agent) (raw : RawAction)
    (hs : StoreInv s0) : StoreInv (dispatchAction s0 now agent raw).2 := by
  unfold dispatchAction
  repeat' split
  all_goals first
    | exact hs
    | exact storeInv_expand _ _ _ _ hs
    | exact storeInv_of_tiles_eq _ _ (tiles_declareAttack _ _ _ _ _ _) hs
    | exact storeInv_fortify _ _ _ _ _ hs
    | exact storeInv_giftTile _ _ _ _ _ hs
    | exact storeInv_of_tiles_eq _ _ (tiles_giftResources _ _ _ _ _) hs
    | exact storeInv_of_tiles_eq _ _ (tiles_sendMessage _ _ _ _) hs
    | exact storeInv_of_tiles_eq _ _ (tiles_proposeTrade _ _ _ _ _ _ _ _) hs
    | exact storeInv_of_tiles_eq _ _ (tiles_acceptTrade _ _ _ _) hs
    | exact storeInv_of_tiles_eq _ _ (tiles_rejectTrade _ _ _) hs
    | exact storeInv_of_tiles_eq _ _ (tiles_setCapital _ _ _ _) hs

theorem storeInv_submit (s : Store) (now : Int) (agentId : String) (raw : RawAction)
    (hs : StoreInv s) : StoreInv (submitAction s now agentId raw).2 := by
  unfold submitAction
  split
  · exact hs
  · exact storeInv_dispatch _ now _ raw (storeInv_of_tiles_eq s _ rfl hs)

theorem storeInv_join (s : Store) (agentId displayName : String) (hs : StoreInv s) :
    StoreInv (joinAgent s agentId displayName).2 := by
  unfold joinAgent
  repeat' split
  any_goals exact hs
  rename_i startingTile heq
  dsimp only
  exact storeInv_claim_map s agentId.trim startingTile.q startingTile.r _ rfl hs

theorem storeInv_resolveOne (s : Store) (att : Attack) (hs : StoreInv s) :
    StoreInv (resolveOne s att) := by
  unfold resolveOne
  split
  · exact storeInv_of_tiles_eq s _ rfl hs
  · dsimp only
    split
    · split
      · refine storeInv_capture_map s att.attacker_id att.target_q att.target_r _ ?_ hs
        rw [tiles_updateAttackStatus, tiles_clearCapitalIfLost, tiles_logEvent]
        all_goals rfl
      · refine storeInv_capture_map s att.attacker_id att.target_q att.target_r _ ?_ hs
        rw [tiles_updateAttackStatus, tiles_logEvent]
        all_goals rfl
    · exact storeInv_of_tiles_eq s _
        (by rw [tiles_updateAttackStatus, tiles_logEvent]) hs

theorem storeInv_resolveAttacksStep (s : Store) (now : Int) (hs : StoreInv s) :
    StoreInv (resolveAttacksStep s now) :=
  storeInv_foldl resolveOne _ s (fun st a hst => storeInv_resolveOne st a hst) hs

theorem tiles_produceAgentStep (s : Store) (agentId : String) :
    (produceAgentStep s agentId).tiles = s.tiles := by
  simp only [produceAgentStep]
  split
  · rfl
  · rfl

theorem storeInv_upkeepAgentStep (s : Store) (agentId : String) (hs : StoreInv s) :
    StoreInv (upkeepAgentStep s agentId) := by
  simp only [upkeepAgentStep]
  repeat' split
  all_goals first
    | exact hs
    | exact storeInv_of_tiles_eq s _ rfl hs
    | exact storeInv_foldl (loseTile agentId) _ _
        (fun st x hst => storeInv_loseTile agentId st x hst)
        (storeInv_of_tiles_eq s _ rfl hs)

theorem storeInv_processTick (s : Store) (now : Int) (hs : StoreInv s) :
    StoreInv (processTick s now) := by
  have h1 : StoreInv (resolveAttacksStep s now) := storeInv_resolveAttacksStep s now hs
  have h2 : StoreInv (productionStep (resolveAttacksStep s now)
      ((resolveAttacksStep s now).agents.map (fun a => a.id))) :=
    storeInv_foldl produceAgentStep _ _
      (fun st x hst => storeInv_of_tiles_eq st _ (tiles_produceAgentStep st x) hst) h1
  have h3 : StoreInv (upkeepStep (productionStep (resolveAttacksStep s now)
      ((resolveAttacksStep s now).agents.map (fun a => a.id)))
      ((resolveAttacksStep s now).agents.map (fun a => a.id))) :=
    storeInv_foldl upkeepAgentStep _ _ (fun st x hst => storeInv_upkeepAgentStep st x hst) h2
  exact storeInv_of_tiles_eq _ _ rfl h3

theorem storeInv_insertTileIfAbsent (s : Store) (q r : Int) (terrain : Terrain)
    (hs : StoreInv s) : StoreInv (insertTileIfAbsent s q r terrain) := by
  unfold insertTileIfAbsent
  split
  · exact hs
  · rename_i hnone
    have hgt : getTile s q r = none := Option.not_isSome_iff_eq_none.mp hnone
    have hgt' : s.tiles.find? (fun t => t.q == q && t.r == r) = none := hgt
    have hfind := List.find?_eq_none.mp hgt'
    constructor
    · show ((s.tiles ++ [(⟨q, r, terrain, none, 0⟩ : Tile)]).map fun t => (t.q, t.r)).Nodup
      rw [List.map_append, List.nodup_append]
      refine ⟨hs.1, by simp, ?_⟩
      intro a ha hb
      simp at hb
      subst hb
      obtain ⟨t, ht, hcoords⟩ := List.mem_map.mp ha
      have hq : t.q = q := congrArg Prod.fst hcoords
      have hr : t.r = r := congrArg Prod.snd hcoords
      exact hfind t ht (by rw [hq, hr]; simp)
    · intro t ht
      have ht' : t ∈ s.tiles ++ [(⟨q, r, terrain, none, 0⟩ : Tile)] := ht
      rw [List.mem_append] at ht'
      rcases ht' with h | h
      · exact hs.2 t h
      · rw [List.mem_singleton] at h
        subst h
        intro _
        rfl

theorem storeInv_expandGrid (s : Store) (terrainOf : Int → Int → Terrain) (rings : Int)
    (hs : StoreInv s) : StoreInv (expandGrid s terrainOf rings) := by
  have hs1 : StoreInv ((List.range rings.toNat).foldl
      (fun st i => (getHexRingCoords (s.gameState.grid_radius + 1 + (i : Int))).foldl
        (fun st2 c => insertTileIfAbsent st2 c.1 c.2 (terrainOf c.1 c.2)) st) s) :=
    storeInv_foldl _ _ _
      (fun st i hst => storeInv_foldl _ _ _
        (fun st2 c h2 => storeInv_insertTileIfAbsent st2 c.1 c.2 _ h2) hst) hs
  exact storeInv_of_tiles_eq _ _ rfl hs1

theorem tileCoords_initialStore (terrainOf : Int → Int → Terrain) :
    tileCoords (initialStore terrainOf) = gridCoords 8 := by
  show ((gridCoords 8).map (fun c => (⟨c.1, c.2, terrainOf c.1 c.2, none, 0⟩ : Tile))).map
      (fun t : Tile => (t.q, t.r)) = gridCoords 8
  rw [List.map_map]
  have hfun : ((fun t : Tile => (t.q, t.r)) ∘
      (fun c : Int × Int => (⟨c.1, c.2, terrainOf c.1 c.2, none, 0⟩ : Tile))) = id := rfl
  rw [hfun, List.map_id]

set_option maxRecDepth 4000 in
theorem gridCoords_nodup : (gridCoords 8).Nodup := by decide

theorem storeInv_initialStore (terrainOf : Int → Int → Terrain) :
    StoreInv (initialStore terrainOf) := by
  constructor
  · rw [tileCoords_initialStore]
    exact gridCoords_nodup
  · intro t ht
    have ht' : t ∈ (gridCoords 8).map
        (fun c => (⟨c.1, c.2, terrainOf c.1 c.2, none, 0⟩ : Tile)) := ht
    obtain ⟨c, hc, rfl⟩ := List.mem_map.mp ht'
    intro _
    rfl

theorem storeInv_reach (s : Store) (h : Reach s) : StoreInv s := by
  induction h with
  | init terrainOf => exact storeInv_initialStore terrainOf
  | step_join s agentId displayName _ ih => exact storeInv_join s agentId displayName ih
  | step_action s now agentId raw _ ih => exact storeInv_submit s now agentId raw ih
  | step_tick s now _ ih => exact storeInv_processTick s now ih
  | step_expand_grid s terrainOf rings _ ih => exact storeInv_expandGrid s terrainOf rings ih

/-- C9: in every reachable store, every tile whose owner is null has
fortification 0.  Tiles are generated (initially and by grid expansion)
with fortification 0, starvation and capture reset fortification to 0
whenever they clear or transfer the owner, fortify requires the caller to
own the tile, and expand only claims unclaimed tiles, so the invariant is
preserved by every operation (going through the schema fact that tile
coordinates are unique, which all reachable stores also satisfy). -/
theorem c9_unowned_tiles_unfortified (s : Store) (h : Reach s) : TileInv s :=
  (storeInv_reach s h).2

/-- Witness for C9 at the freshly generated world under the all-barren
terrain draw: reachability is discharged by the init constructor. -/
theorem c9_unowned_tiles_unfortified_witness :
    Reach (initialStore allBarren) ∧ TileInv (initialStore allBarren) :=
  ⟨Reach.init allBarren, c9_unowned_tiles_unfortified _ (Reach.init allBarren)⟩

end Conquest
